import Mathlib

/-!
# Verification of the Open Filament Database build pipeline

A shallow embedding, in Lean 4, of the builder core of the
`open-filament-database` repository: the data crawler
(`src/ofd/builder/crawler.py`), the snapshot data model
(`src/ofd/builder/models.py`), the shared export serialization
(`src/ofd/builder/serialization.py`) and the tabular exporter
(`src/ofd/builder/exporters/csv_exporter.py`).

JSON documents are modelled by the inductive type `Json`; Python dicts are
association lists with Python's insertion-order update semantics; fallible
Python code (code that can raise) is modelled in the `Except String` monad,
where an `Except.error` value models an uncaught Python exception escaping
`crawl_data`.

The helper module `ofd/builder/utils.py` (identifier generation, slug and
color-hex normalization, `ensure_list`) and `ofd/builder/errors.py`
(`BuildResult`) are not part of the available sources; they are modelled
from the specification, and each such definition carries a doc comment
starting with `Modelled from the spec:`.
-/

/-- A JSON/Python float, modelled as the exact decimal `num / 10 ^ exp10`.
The source documents carry decimal literals, and the crawler never does
float arithmetic on them — it only constructs, converts (`int(·)`,
`float(·)`) and truthiness-tests them — so exact decimals are a faithful
model and no claim here depends on binary floating-point rounding. -/
structure PyFloat where
  num : Int
  exp10 : Nat
  deriving DecidableEq, Repr

namespace PyFloat

/-- The float's value is zero (Python falsy) iff the mantissa is. -/
def isZero (f : PyFloat) : Bool := f.num = 0

/-- Python `int(·)` of a float: truncation toward zero. -/
def trunc (f : PyFloat) : Int :=
  if 0 ≤ f.num then Int.ofNat (f.num.toNat / 10 ^ f.exp10)
  else -Int.ofNat ((-f.num).toNat / 10 ^ f.exp10)

/-- The float written `1.75` in the crawler source. -/
def onePoint75 : PyFloat := ⟨175, 2⟩

end PyFloat

/-- A JSON value as produced by Python's `json.load`: `null`/`None`,
booleans, integers, floats, strings, arrays and objects.  Objects keep
their key order, as Python dicts do; `json.load` guarantees the keys of a
parsed object are pairwise distinct. -/
inductive Json where
  | null : Json
  | bool : Bool → Json
  | int : Int → Json
  | float : PyFloat → Json
  | str : String → Json
  | arr : List Json → Json
  | obj : List (String × Json) → Json
  deriving Repr

/-- A Python dict with string keys, in insertion order. -/
abbrev Obj := List (String × Json)

mutual

/-- Structural boolean equality of JSON values (used for the Python-dict
store cache; the crawler only ever stores strings there on the good path,
so Python's numeric cross-type key equality is never exercised by the
theorems below). -/
def Json.beq : Json → Json → Bool
  | .null, .null => true
  | .bool a, .bool b => a = b
  | .int a, .int b => a = b
  | .float a, .float b => a = b
  | .str a, .str b => a = b
  | .arr xs, .arr ys => Json.beqList xs ys
  | .obj xs, .obj ys => Json.beqPairs xs ys
  | _, _ => false

def Json.beqList : List Json → List Json → Bool
  | [], [] => true
  | x :: xs, y :: ys => Json.beq x y && Json.beqList xs ys
  | _, _ => false

def Json.beqPairs : List (String × Json) → List (String × Json) → Bool
  | [], [] => true
  | (k1, v1) :: xs, (k2, v2) :: ys => k1 = k2 && Json.beq v1 v2 && Json.beqPairs xs ys
  | _, _ => false

end

namespace Json

/-- Python truthiness of a JSON value (`if x:`): `None`, `False`, `0`,
`0.0`, `""`, `[]` and `{}` are falsy, everything else truthy. -/
def truthy : Json → Bool
  | .null => false
  | .bool b => b
  | .int n => n ≠ 0
  | .float q => !q.isZero
  | .str s => s ≠ ""
  | .arr xs => !xs.isEmpty
  | .obj kvs => !kvs.isEmpty

end Json

namespace Obj

/-- First-match lookup on a Python dict (`k in d`, `d[k]`). -/
def get? (o : Obj) (k : String) : Option Json :=
  (o.find? (fun p => p.1 = k)).map Prod.snd

/-- Python's `d.get(k, dflt)`. -/
def getD (o : Obj) (k : String) (dflt : Json) : Json :=
  (o.get? k).getD dflt

/-- Python dict update `d[k] = v` (also the effect of a later `"k": v`
entry in a dict literal that begins with `**d`): an existing key keeps its
position and receives the new value, a new key is appended at the end. -/
def set (o : Obj) (k : String) (v : Json) : Obj :=
  if o.any (fun p => p.1 = k) then
    o.map (fun p => if p.1 = k then (k, v) else p)
  else
    o ++ [(k, v)]

/-- Python's `d.pop(k, None)` (only the removal effect). -/
def remove (o : Obj) (k : String) : Obj :=
  o.filter (fun p => p.1 ≠ k)

end Obj

/-- The first crash point of every per-document handler in the crawler:
calling `.get` on (or `**`-splatting) the result of `json.load` raises
`AttributeError`/`TypeError` when the document is not a JSON object. -/
def asObj : Json → Except String Obj
  | .obj kvs => .ok kvs
  | _ => .error "AttributeError: document is not a JSON object"

/-- The strings accepted by Python's `int(·)`, restricted to the form
`[+|-]digits` (a faithful under-approximation of CPython's grammar:
every string this accepts, CPython accepts with the same value). -/
def parseIntStr? (s : String) : Option Int :=
  let core (ds : List Char) : Option Nat :=
    if ds.isEmpty then none
    else if ds.all Char.isDigit then
      some (ds.foldl (fun n c => 10 * n + (c.toNat - '0'.toNat)) 0)
    else none
  match s.data with
  | '-' :: rest => (core rest).map (fun n => -(n : Int))
  | '+' :: rest => (core rest).map (fun n => (n : Int))
  | ds => (core ds).map (fun n => (n : Int))

/-- The strings accepted by Python's `float(·)`, restricted to the form
`[+|-]digits[.digits]` (again a faithful under-approximation). -/
def parseFloatStr? (s : String) : Option PyFloat :=
  let digits? (ds : List Char) : Option Nat :=
    if ds.isEmpty ∨ ¬ ds.all Char.isDigit then none
    else some (ds.foldl (fun n c => 10 * n + (c.toNat - '0'.toNat)) 0)
  let unsigned (ds : List Char) : Option PyFloat :=
    match ds.splitOn '.' with
    | [whole] => (digits? whole).map (fun n => ⟨(n : Int), 0⟩)
    | [whole, frac] =>
        match digits? whole, digits? frac with
        | some w, some f => some ⟨(w * 10 ^ frac.length + f : Nat), frac.length⟩
        | _, _ => none
    | _ => none
  match s.data with
  | '-' :: rest => (unsigned rest).map (fun q => ⟨-q.num, q.exp10⟩)
  | '+' :: rest => unsigned rest
  | ds => unsigned ds

/-- Python `int(x)` on a JSON value: bools and ints convert exactly,
floats truncate toward zero, numeric strings parse, everything else
raises (`ValueError`/`TypeError`). -/
def pyInt? : Json → Option Int
  | .bool b => some (if b then 1 else 0)
  | .int n => some n
  | .float q => some q.trunc
  | .str s => parseIntStr? s
  | _ => none

/-- Python `float(x)` on a JSON value. -/
def pyFloat? : Json → Option PyFloat
  | .bool b => some ⟨if b then 1 else 0, 0⟩
  | .int n => some ⟨n, 0⟩
  | .float q => some q
  | .str s => parseFloatStr? s
  | _ => none

def pyInt (v : Json) : Except String Int :=
  match pyInt? v with
  | some n => .ok n
  | none => .error "ValueError: invalid literal for int()"

def pyFloat (v : Json) : Except String PyFloat :=
  match pyFloat? v with
  | some q => .ok q
  | none => .error "ValueError: could not convert to float()"

/-- Whether a JSON value is usable as a Python dict key (`arr`/`obj`
values are unhashable and raise `TypeError` when used as keys). -/
def hashable : Json → Bool
  | .arr _ => false
  | .obj _ => false
  | _ => true

/-! ## Helpers modelled from the spec (`ofd/builder/utils.py`, `ofd/builder/errors.py`) -/

/-- Character escaping for identifier derivation: maps `:`, `|` and `~` to
two-character escape sequences beginning with `~`, leaving every other
character alone.  The image of a string therefore contains no `:` and no
`|`, and the encoding is a prefix code. -/
def escChar (c : Char) : List Char :=
  if c = ':' then ['~', 'c']
  else if c = '|' then ['~', 'p']
  else if c = '~' then ['~', 't']
  else [c]

def escStr (s : String) : List Char := s.data.flatMap escChar

/-- Modelled from the spec: the Identity Generator (§4.1) — missing from
the available sources (`ofd/builder/utils.py`); the spec leaves the exact
derivation open (§9) but requires a pure, deterministic, collision-free
function of (entity-type tag, ordered natural-key strings).  This stand-in
is an injective encoding: the escaped tag followed by each escaped key
behind a `|` separator. -/
def genId (tag : String) (keys : List String) : String :=
  ⟨escStr tag ++ keys.flatMap (fun k => '|' :: escStr k)⟩

mutual

/-- Rendering of an arbitrary Python value into a natural-key string
(the id generators receive raw JSON values for some keys: a store's
declared id, a variant's source id, a size record's content, a URL). -/
def jsonKey : Json → String
  | .null => "None"
  | .bool b => if b then "True" else "False"
  | .int n => toString n
  | .float f => toString f.num ++ "e-" ++ toString f.exp10
  | .str s => s
  | .arr xs => "[" ++ jsonKeyList xs ++ "]"
  | .obj kvs => "\x7b" ++ jsonKeyPairs kvs ++ "\x7d"

def jsonKeyList : List Json → String
  | [] => ""
  | [x] => jsonKey x
  | x :: xs => jsonKey x ++ "," ++ jsonKeyList xs

def jsonKeyPairs : List (String × Json) → String
  | [] => ""
  | [(k, v)] => k ++ ":" ++ jsonKey v
  | (k, v) :: kvs => k ++ ":" ++ jsonKey v ++ "," ++ jsonKeyPairs kvs

end

/-- Unary rendering of the positional index used by the size identifier —
injective by construction (`List.replicate` is length-preserving). -/
def indexKey (n : Nat) : String := ⟨List.replicate n 'i'⟩

/-- Modelled from the spec: Brand ← directory name (§4.1). -/
def generate_brand_id (brand_name : String) : String := genId "brand" [brand_name]

/-- Modelled from the spec: Material ← (brand id, material directory name). -/
def generate_material_id (brand_id material_name : String) : String :=
  genId "material" [brand_id, material_name]

/-- Modelled from the spec: Filament ← (brand id, material id, filament name). -/
def generate_filament_id (brand_id material_id : String) (filament_name : Json) : String :=
  genId "filament" [brand_id, material_id, jsonKey filament_name]

/-- Modelled from the spec: Variant ← (filament id, caller-supplied source id). -/
def generate_variant_id (filament_id : String) (source_id : Json) : String :=
  genId "variant" [filament_id, jsonKey source_id]

/-- Modelled from the spec: Size ← (variant id, the size record's own
content, a positional index as disambiguator). -/
def generate_size_id (variant_id : String) (entry : Json) (index : Nat) : String :=
  genId "size" [variant_id, jsonKey entry, indexKey index]

/-- Modelled from the spec: Store ← the store's own declared identifier. -/
def generate_store_id (original_id : Json) : String :=
  genId "store" [jsonKey original_id]

/-- Modelled from the spec: PurchaseLink ← (size id, resolved store id, URL). -/
def generate_purchase_link_id (size_id store_uuid : String) (url : Json) : String :=
  genId "purchase" [size_id, store_uuid, jsonKey url]

/-- Modelled from the spec: slug computation — missing from the available
sources; modelled as lowercasing with spaces hyphenated, a total function
of the input string (its exact letter-level behaviour is irrelevant to
every claim below). -/
def slugify (s : String) : String :=
  ⟨s.data.map (fun c => if c = ' ' then '-' else c.toLower)⟩

/-- The crawler applies `slugify` to values drawn from parsed JSON; on a
non-string Python value a `.lower()`-based slugifier raises, which the
`Except` result models. -/
def pySlugify : Json → Except String String
  | .str s => .ok (slugify s)
  | _ => .error "AttributeError: slugify expects a str"

/-- The 22 characters a hex color digit may be. -/
def hexDigits : List Char :=
  ['0', '1', '2', '3', '4', 'a', 'b', 'c', '5', '6', '7', 'd', 'e', 'f',
   '8', '9', 'A', 'B', 'C', 'D', 'E', 'F']

def isHexDigitChar (c : Char) : Bool := hexDigits.contains c

/-- Uppercasing of a lowercase hex digit. -/
def hexUp (c : Char) : Char :=
  if c = 'a' then 'A' else if c = 'b' then 'B' else if c = 'c' then 'C'
  else if c = 'd' then 'D' else if c = 'e' then 'E' else if c = 'f' then 'F' else c

/-- Modelled from the spec: `normalize_color_hex` — missing from the
available sources.  On a valid hex color string (six hex digits, with or
without a leading `#`) it returns the `#`-prefixed uppercase form; on
malformed or non-string input it returns `None` (falsy) — the crawler's
own `normalize_color_hex(...) or "#000000"` fallback shows the function
can return a falsy value, so the `#000000` defaulting the spec describes
lives in the caller, not here. -/
def normalize_color_hex : Json → Option String
  | .str s =>
      let body := match s.data with
        | '#' :: rest => rest
        | ds => ds
      if body.length = 6 && body.all isHexDigitChar then
        some ⟨'#' :: body.map hexUp⟩
      else none
  | _ => none

/-- Modelled from the spec: `ensure_list` — shipping-override fields "are
always coerced to arrays even if the source supplied a single scalar". -/
def ensure_list : Json → Json
  | .arr xs => .arr xs
  | v => .arr [v]

/-- Modelled from the spec: one diagnostics record of the build log —
category, message and originating path (§7; `ofd/builder/errors.py` is
missing from the available sources). -/
structure Warning where
  category : String
  message : String
  path : String
  deriving DecidableEq, Repr

/-! ## The source tree and the crawl state -/

/-- A directory of a source tree: named documents (`none` models a file on
which `json.load` raises) and named subdirectories.  A listing is taken to
be in the lexicographic order `sorted(iterdir())` produces, with
pairwise-distinct names; the `is_dir()` test of the crawler is modelled by
the split between `files` and `dirs`. -/
inductive Dir where
  | node (files : List (String × Option Json)) (dirs : List (String × Dir))

def Dir.files : Dir → List (String × Option Json)
  | .node fs _ => fs

def Dir.dirs : Dir → List (String × Dir)
  | .node _ ds => ds

/-- `(<dir>/<name>).exists()` plus `json.load`: `none` = no such file,
`some none` = present but unparseable, `some (some v)` = parses to `v`. -/
def Dir.file? (d : Dir) (name : String) : Option (Option Json) :=
  (d.files.find? (fun p => p.1 = name)).map Prod.snd

/-- `name.startswith('.')` of the crawler's directory filters. -/
def hiddenName (s : String) : Bool :=
  match s.data with
  | '.' :: _ => true
  | _ => false

/-- The subdirectories the crawler visits at each level: directories only,
dot-named ones skipped (`crawler.py` lines 62-66, 114-118, 157-161,
198-202, 244-248). -/
def Dir.visible (d : Dir) : List (String × Dir) :=
  d.dirs.filter (fun p => !hiddenName p.1)

/-- The crawler's mutable state: the `Database` snapshot collections
(`models.py`), the accumulated diagnostics, and the three per-build
caches (`crawler.py` lines 26-32). -/
structure CrawlState where
  brands : List Obj
  materials : List Obj
  filaments : List Obj
  variants : List Obj
  sizes : List Obj
  stores : List Obj
  purchase_links : List Obj
  warnings : List Warning
  brandCache : List (String × String)
  materialCache : List (String × String)
  storeCache : List (Json × String)
  deriving Repr

def initialState : CrawlState := ⟨[], [], [], [], [], [], [], [], [], [], []⟩

/-- `BuildResult.add_warning` (modelled from the spec: diagnostics are
appended to a log returned alongside the snapshot). -/
def addWarning (s : CrawlState) (category message path : String) : CrawlState :=
  { s with warnings := s.warnings ++ [⟨category, message, path⟩] }

/-- Lookup in a string-keyed Python dict cache. -/
def strCacheGet? (c : List (String × String)) (k : String) : Option String :=
  (c.find? (fun p => p.1 = k)).map Prod.snd

/-- Update of a string-keyed Python dict cache (insertion-order update). -/
def strCacheSet (c : List (String × String)) (k v : String) : List (String × String) :=
  if c.any (fun p => p.1 = k) then
    c.map (fun p => if p.1 = k then (k, v) else p)
  else
    c ++ [(k, v)]

/-- `self._store_cache.get(original_store_id)` — the store cache is keyed
by the raw JSON value of the store's declared id. -/
def storeCacheGet? (c : List (Json × String)) (k : Json) : Option String :=
  (c.find? (fun p => Json.beq p.1 k)).map Prod.snd

def storeCacheSet (c : List (Json × String)) (k : Json) (v : String) : List (Json × String) :=
  if c.any (fun p => Json.beq p.1 k) then
    c.map (fun p => if Json.beq p.1 k then (k, v) else p)
  else
    c ++ [(k, v)]

/-- Run a per-node handler over a directory listing, propagating an
uncaught exception (the crawler's plain `for` loops). -/
def runList (f : α → CrawlState → Except String CrawlState) :
    List α → CrawlState → Except String CrawlState
  | [], s => .ok s
  | x :: xs, s =>
      match f x s with
      | .error e => .error e
      | .ok s' => runList f xs s'

/-- Python iteration (`for x in v`) over a JSON value: arrays yield their
elements, strings their characters, dicts their keys; numbers, booleans
and `None` raise `TypeError`. -/
def pyIterate : Json → Except String (List Json)
  | .arr xs => .ok xs
  | .str t => .ok (t.data.map (fun c => .str ⟨[c]⟩))
  | .obj kvs => .ok (kvs.map (fun p => .str p.1))
  | _ => .error "TypeError: object is not iterable"

/-! ## The crawler (`src/ofd/builder/crawler.py`), bottom-up -/

/-- The purchase-link dict literal of `_create_purchase_link`
(lines 388-401): all source fields pass through, computed fields overlay,
shipping overrides are coerced to arrays when truthy. -/
def mkPurchaseLink (pl : Obj) (pl_id size_id store_uuid : String) (url : Json) : Obj :=
  let base := ((((pl.set "id" (.str pl_id)).set "size_id" (.str size_id)).set
      "store_id" (.str store_uuid)).set "url" url).set
      "spool_refill" (pl.getD "spool_refill" (.bool false))
  let base := if (base.getD "ships_from" .null).truthy then
      base.set "ships_from" (ensure_list (base.getD "ships_from" .null)) else base
  if (base.getD "ships_to" .null).truthy then
    base.set "ships_to" (ensure_list (base.getD "ships_to" .null)) else base

/-- `DataCrawler._create_purchase_link` (lines 363-403). -/
def createPurchaseLink (plEntry : Json) (size_id : String) (sizeIndex linkIndex : Nat)
    (path : String) (s : CrawlState) : Except String CrawlState := do
  let pl ← asObj plEntry
  let storeIdRaw := pl.getD "store_id" .null
  let url := pl.getD "url" .null
  if ¬ storeIdRaw.truthy ∨ ¬ url.truthy then
    .ok (addWarning s "Missing Field"
      ("Purchase link [" ++ toString sizeIndex ++ "].purchase_links[" ++
        toString linkIndex ++ "] missing store_id or url") path)
  else if ¬ hashable storeIdRaw then
    .error "TypeError: unhashable type used as dict key"
  else
    match storeCacheGet? s.storeCache storeIdRaw with
    | none =>
        .ok (addWarning s "Invalid Reference"
          ("Unknown store_id at [" ++ toString sizeIndex ++ "].purchase_links[" ++
            toString linkIndex ++ "]") path)
    | some store_uuid =>
        let pl_id := generate_purchase_link_id size_id store_uuid url
        .ok { s with purchase_links :=
          s.purchase_links ++ [mkPurchaseLink pl pl_id size_id store_uuid url] }

/-- The size dict literal of `_create_size` (lines 342-355): source fields
pass through, computed fields overlay, `gtin` is set when truthy and the
`ean` and `purchase_links` keys are removed. -/
def mkSize (entry : Obj) (size_id variant_id : String) (weight : Int)
    (diameter : PyFloat) (gtin : Json) : Obj :=
  let base := ((((entry.set "id" (.str size_id)).set "variant_id" (.str variant_id)).set
      "filament_weight" (.int weight)).set "diameter" (.float diameter)).set
      "discontinued" (entry.getD "discontinued" (.bool false))
  let base := if gtin.truthy then base.set "gtin" gtin else base
  (base.remove "ean").remove "purchase_links"

/-- `DataCrawler._create_size` (lines 321-361).  Note the bare
`int(weight)` and `float(diameter)` conversions (lines 346-347): on a
non-convertible value they raise and the exception escapes the crawl. -/
def createSize (entry : Json) (variant_id : String) (index : Nat) (path : String)
    (s : CrawlState) : Except String CrawlState := do
  let e ← asObj entry
  let weight := e.getD "filament_weight" .null
  let diameter0 := e.getD "diameter" (.float .onePoint75)
  let diameter1 := if diameter0.truthy then diameter0 else .float .onePoint75
  match weight with
  | .null =>
      .ok (addWarning s "Missing Field"
        ("Size entry [" ++ toString index ++ "] missing filament_weight") path)
  | _ => do
      let size_id := generate_size_id variant_id entry index
      let gtin := if (e.getD "gtin" .null).truthy then e.getD "gtin" .null
        else e.getD "ean" .null
      let plData := e.getD "purchase_links" (.arr [])
      let w ← pyInt weight
      let dia ← pyFloat diameter1
      let s := { s with sizes := s.sizes ++ [mkSize e size_id variant_id w dia gtin] }
      let pls ← pyIterate plData
      runList (fun p => createPurchaseLink p.2 size_id index p.1 path) pls.enum s

/-- `DataCrawler._process_sizes_file` (lines 306-319): a parse failure is
a warning; a bare object is wrapped into a one-element list. -/
def processSizesFile (content : Option Json) (variant_id : String) (path : String)
    (s : CrawlState) : Except String CrawlState :=
  match content with
  | none => .ok (addWarning s "JSON Parse" "Failed to parse" path)
  | some sd =>
      let sizesList := match sd with | .arr xs => xs | v => [v]
      runList (fun p => createSize p.2 variant_id p.1 path) sizesList.enum s

/-- The computed `color_hex` of `_process_variant_directory`
(lines 274-279): an array takes its first element with *no* `or "#000000"`
fallback on that branch; an empty array and the non-array path default to
`"#000000"`. -/
def colorHexVal (raw : Json) : Json :=
  match raw with
  | .arr [] => .str "#000000"
  | .arr (h :: _) =>
      match normalize_color_hex h with
      | some c => .str c
      | none => .null
  | v => .str ((normalize_color_hex v).getD "#000000")

/-- One element of the hex-variant comprehension (line 284): a
truthy-but-malformed input contributes `None` (`null`) to the list. -/
def normHexElem (h : Json) : Json :=
  match normalize_color_hex h with
  | some c => Json.str c
  | none => Json.null

/-- The hex-variant list comprehension of line 284:
`[normalize_color_hex(h) for h in hex_variants if h]` — falsy *inputs* are
filtered, and a truthy-but-malformed input contributes `None` (`null`) to
the list. -/
def normHexList (hv : Json) : Except String (List Json) := do
  let xs ← pyIterate hv
  pure ((xs.filter Json.truthy).map normHexElem)

/-- The variant dict literal of lines 287-295. -/
def mkVariant (vd : Obj) (variant_id filament_id slug : String)
    (nameVal colorHex : Json) : Obj :=
  ((((((vd.set "id" (.str variant_id)).set "filament_id" (.str filament_id)).set
      "slug" (.str slug)).set "name" nameVal).set "color_hex" colorHex).set
      "discontinued" (vd.getD "discontinued" (.bool false)))

/-- The `hex_variants` reassignment of lines 282-284: applied only when
the raw value is truthy, and raising when a truthy value is not
iterable. -/
def hexVariantsNew (hv : Json) : Except String (Option (List Json)) :=
  if hv.truthy then do
    let l ← normHexList hv
    pure (some l)
  else pure (none : Option (List Json))

/-- The variant entity as finally appended (lines 287-297): the dict
literal, plus the `hex_variants` overlay when the normalized list is
truthy — otherwise the raw source value survives through
`**variant_data`. -/
def variantEntity (vd : Obj) (name filament_id slug : String)
    (hvNew : Option (List Json)) : Obj :=
  let variant := mkVariant vd (generate_variant_id filament_id (vd.getD "id" (.str name)))
    filament_id slug (vd.getD "name" (.str name))
    (colorHexVal (vd.getD "color_hex" (.str "#000000")))
  match hvNew with
  | some l => if l.isEmpty then variant else variant.set "hex_variants" (.arr l)
  | none => variant

/-- `DataCrawler._process_variant_directory` (lines 252-304). -/
def processVariantDirectory (parentPath name : String) (d : Dir) (filament_id : String)
    (s : CrawlState) : Except String CrawlState :=
  let dirPath := parentPath ++ "/" ++ name
  match d.file? "variant.json" with
  | none => .ok (addWarning s "Missing File" "Missing variant.json" dirPath)
  | some none => .ok (addWarning s "JSON Parse" "Failed to parse" (dirPath ++ "/variant.json"))
  | some (some doc) => do
      let vd ← asObj doc
      let sourceId := vd.getD "id" (.str name)
      let variant_id := generate_variant_id filament_id sourceId
      let hvNew ← hexVariantsNew (vd.getD "hex_variants" .null)
      let slug ← pySlugify sourceId
      let s := { s with variants := s.variants ++ [variantEntity vd name filament_id slug hvNew] }
      match d.file? "sizes.json" with
      | none => .ok s
      | some c => processSizesFile c variant_id (dirPath ++ "/sizes.json") s

/-- The filament dict literal of lines 228-239. -/
def mkFilament (fd : Obj) (filament_id brand_id material_id : String) (nameVal : Json)
    (slug material_name : String) : Obj :=
  (((((((((fd.set "id" (.str filament_id)).set "brand_id" (.str brand_id)).set
      "material_id" (.str material_id)).set "name" nameVal).set "slug" (.str slug)).set
      "material" (.str material_name)).set "density" (fd.getD "density" (.float ⟨124, 2⟩))).set
      "diameter_tolerance" (fd.getD "diameter_tolerance" (.float ⟨2, 2⟩))).set
      "discontinued" (fd.getD "discontinued" (.bool false)))

/-- `DataCrawler._process_filament_directory` (lines 206-250). -/
def processFilamentDirectory (parentPath name : String) (d : Dir)
    (brand_id material_id material_name : String) (s : CrawlState) :
    Except String CrawlState :=
  let dirPath := parentPath ++ "/" ++ name
  match d.file? "filament.json" with
  | none => .ok (addWarning s "Missing File" "Missing filament.json" dirPath)
  | some none => .ok (addWarning s "JSON Parse" "Failed to parse" (dirPath ++ "/filament.json"))
  | some (some doc) => do
      let fd ← asObj doc
      let nameVal := fd.getD "name" (.str name)
      let filament_id := generate_filament_id brand_id material_id nameVal
      let slug ← pySlugify nameVal
      let s := { s with filaments := s.filaments ++
        [mkFilament fd filament_id brand_id material_id nameVal slug material_name] }
      runList (fun p => processVariantDirectory dirPath p.1 p.2 filament_id) d.visible s

/-- The material dict literal of lines 185-192. -/
def mkMaterial (md : Obj) (material_id brand_id material_name : String) : Obj :=
  ((((md.set "id" (.str material_id)).set "brand_id" (.str brand_id)).set
      "material" (md.getD "material" (.str material_name))).set
      "slug" (.str (slugify material_name))).set
      "material_class" (md.getD "material_class" (.str "FFF"))

/-- Lines 169-177 of `_process_material_directory`: loading
`material.json` — absent is tolerated (`material_data = {}`), malformed is
a "JSON Parse" warning and `material_data` stays `{}`, never a skip. -/
def materialDocResolve (parentPath name : String) (d : Dir) (s : CrawlState) :
    CrawlState × Json :=
  match d.file? "material.json" with
  | none => (s, Json.obj [])
  | some none =>
      (addWarning s "JSON Parse" "Failed to parse"
        (parentPath ++ "/" ++ name ++ "/material.json"), Json.obj [])
  | some (some doc) => (s, doc)

/-- `DataCrawler._process_material_directory` (lines 165-204).  A missing
`material.json` is tolerated, a malformed one yields a warning and an
empty `material_data` — in both cases the material is synthesized from the
directory name and the filament subdirectories are still visited. -/
def processMaterialDirectory (parentPath name : String) (d : Dir) (brand_id : String)
    (s : CrawlState) : Except String CrawlState := do
  let sm := materialDocResolve parentPath name d s
  let material_id := generate_material_id brand_id name
  let cacheKey := brand_id ++ ":" ++ name
  let s2 ← if (strCacheGet? sm.1.materialCache cacheKey).isNone then do
      let md ← asObj sm.2
      pure { sm.1 with
        materials := sm.1.materials ++ [mkMaterial md material_id brand_id name],
        materialCache := strCacheSet sm.1.materialCache cacheKey material_id }
    else pure sm.1
  runList (fun p => processFilamentDirectory (parentPath ++ "/" ++ name) p.1 p.2
    brand_id material_id name) d.visible s2

/-- The brand dict literal of lines 142-151. -/
def mkBrand (bd : Obj) (brand_id brand_name : String) : Obj :=
  (((((((bd.set "id" (.str brand_id)).set "name" (bd.getD "name" (.str brand_name))).set
      "slug" (.str (slugify brand_name))).set "directory_name" (.str brand_name)).set
      "website" (bd.getD "website" (.str ""))).set "logo" (bd.getD "logo" (.str ""))).set
      "origin" (bd.getD "origin" (.str "Unknown")))

/-- `DataCrawler._process_brand_directory` (lines 122-163): a missing
`brand.json` is a "Missing File" warning and the subtree is skipped. -/
def processBrandDirectory (dataPath name : String) (d : Dir) (s : CrawlState) :
    Except String CrawlState :=
  let dirPath := dataPath ++ "/" ++ name
  match d.file? "brand.json" with
  | none => .ok (addWarning s "Missing File" "Missing brand.json" dirPath)
  | some none => .ok (addWarning s "JSON Parse" "Failed to parse" (dirPath ++ "/brand.json"))
  | some (some doc) => do
      let bd ← asObj doc
      let brand_id := generate_brand_id name
      let s := { s with
        brands := s.brands ++ [mkBrand bd brand_id name],
        brandCache := strCacheSet s.brandCache name brand_id }
      runList (fun p => processMaterialDirectory dirPath p.1 p.2 brand_id) d.visible s

/-- The store dict literal of lines 92-102. -/
def mkStore (data : Obj) (store_id : String) (nameVal : Json) (slug dirName : String) : Obj :=
  ((((((((data.set "id" (.str store_id)).set "name" nameVal).set "slug" (.str slug)).set
      "directory_name" (.str dirName)).set
      "storefront_url" (data.getD "storefront_url" (.str ""))).set
      "logo" (data.getD "logo" (.str ""))).set
      "ships_from" (ensure_list (data.getD "ships_from" (.arr [])))).set
      "ships_to" (ensure_list (data.getD "ships_to" (.arr []))))

/-- `DataCrawler._process_store_directory` (lines 70-105): a store
directory without `store.json` is skipped *silently* (lines 73-74,
no warning); a store document without a truthy `id` is a "Missing Field"
warning. -/
def processStoreDirectory (storesPath name : String) (d : Dir) (s : CrawlState) :
    Except String CrawlState :=
  let path := storesPath ++ "/" ++ name ++ "/store.json"
  match d.file? "store.json" with
  | none => .ok s
  | some none => .ok (addWarning s "JSON Parse" "Failed to parse" path)
  | some (some doc) => do
      let data ← asObj doc
      let originalId := data.getD "id" .null
      if ¬ originalId.truthy then
        .ok (addWarning s "Missing Field" "Store missing 'id' field" path)
      else do
        let store_id := generate_store_id originalId
        let nameVal := data.getD "name" (.str name)
        let slug ← pySlugify nameVal
        if ¬ hashable originalId then
          .error "TypeError: unhashable type used as dict key"
        else
          .ok { s with
            stores := s.stores ++ [mkStore data store_id nameVal slug name],
            storeCache := storeCacheSet s.storeCache originalId store_id }

/-- `DataCrawler._crawl_stores_directory` (lines 56-68): a missing stores
root is the fatal "Directory" condition (recorded, nothing crawled). -/
def crawlStoresDirectory (storesDir? : Option Dir) (s : CrawlState) :
    Except String CrawlState :=
  match storesDir? with
  | none => .ok (addWarning s "Directory" "Stores directory does not exist" "stores")
  | some d => runList (fun p => processStoreDirectory "stores" p.1 p.2) d.visible s

/-- `DataCrawler._crawl_data_directory` (lines 107-120). -/
def crawlDataDirectory (dataDir? : Option Dir) (s : CrawlState) :
    Except String CrawlState :=
  match dataDir? with
  | none => .ok (addWarning s "Directory" "Data directory does not exist" "data")
  | some d => runList (fun p => processBrandDirectory "data" p.1 p.2) d.visible s

/-- `crawl_data` / `DataCrawler.crawl` (lines 34-54, 406-409): stores
first, then the data tree; the returned `CrawlState` carries the
`Database` snapshot and the `BuildResult` diagnostics. -/
def crawl_data (dataDir? storesDir? : Option Dir) : Except String CrawlState := do
  let s ← crawlStoresDirectory storesDir? initialState
  crawlDataDirectory dataDir? s

/-! ## Snapshot container (`models.py`) and export serialization
(`serialization.py`, `exporters/csv_exporter.py`) -/

/-- `models.Database`: the seven ordered entity collections, each entity a
plain dict. -/
structure Database where
  brands : List Obj
  materials : List Obj
  filaments : List Obj
  variants : List Obj
  sizes : List Obj
  stores : List Obj
  purchase_links : List Obj
  deriving Repr

/-- The snapshot held by a crawl state. -/
def CrawlState.db (s : CrawlState) : Database :=
  ⟨s.brands, s.materials, s.filaments, s.variants, s.sizes, s.stores, s.purchase_links⟩

mutual

/-- `json.dumps(value, ensure_ascii=False)` of `serialize_for_csv` /
`serialize_for_sqlite`, in Python's default rendering (`", "` / `": "`
separators); string escaping is restricted to quotes and backslashes,
enough for every value the claims below touch. -/
def jsonDumps : Json → String
  | .null => "null"
  | .bool b => if b then "true" else "false"
  | .int n => toString n
  | .float f => toString f.num ++ "e-" ++ toString f.exp10
  | .str s => "\"" ++ ⟨s.data.flatMap (fun c =>
      if c = '"' then ['\\', '"'] else if c = '\\' then ['\\', '\\'] else [c])⟩ ++ "\""
  | .arr xs => "[" ++ jsonDumpsList xs ++ "]"
  | .obj kvs => "\x7b" ++ jsonDumpsPairs kvs ++ "\x7d"

def jsonDumpsList : List Json → String
  | [] => ""
  | [x] => jsonDumps x
  | x :: xs => jsonDumps x ++ ", " ++ jsonDumpsList xs

def jsonDumpsPairs : List (String × Json) → String
  | [] => ""
  | [(k, v)] => "\"" ++ k ++ "\": " ++ jsonDumps v
  | (k, v) :: kvs => "\"" ++ k ++ "\": " ++ jsonDumps v ++ ", " ++ jsonDumpsPairs kvs

end

/-- `serialization.entity_to_dict` (with the default `exclude_none`):
strips `directory_name`, renames `logo` to `logo_name` for entities that
carry `directory_name` (brands and stores), drops `None` values; iterates
the entity in order building a fresh dict. -/
def entity_to_dict (entity : Obj) : Obj :=
  let isBrandOrStore := entity.any (fun p => p.1 = "directory_name")
  entity.foldl (fun acc p =>
    if p.1 = "directory_name" then acc
    else
      let outKey := if p.1 = "logo" && isBrandOrStore then "logo_name" else p.1
      match p.2 with
      | .null => acc
      | v => Obj.set acc outKey v) []

/-- `serialization.serialize_for_csv`, applied to `exported.get(h)`
(so `none` models both an absent key and Python `None`): booleans become
`"1"`/`"0"`, nested structures compact JSON text, `None` the empty
string, everything else `str(value)` (the float rendering is abbreviated;
no claim below depends on it). -/
def serialize_for_csv : Option Json → String
  | none => ""
  | some .null => ""
  | some (.bool b) => if b then "1" else "0"
  | some (.arr xs) => jsonDumps (.arr xs)
  | some (.obj kvs) => jsonDumps (.obj kvs)
  | some (.int n) => toString n
  | some (.float f) => toString f.num ++ "e-" ++ toString f.exp10
  | some (.str s) => s

/-- `csv_exporter._KEY_ORDER`: preferred key ordering per entity type. -/
def keyOrder (entity_type : String) : List String :=
  match entity_type with
  | "brand" => ["id", "name", "slug", "website", "logo_name", "origin", "source"]
  | "material" => ["id", "brand_id", "material", "slug", "material_class",
      "default_max_dry_temperature", "default_slicer_settings"]
  | "filament" => ["id", "brand_id", "material_id", "name", "slug", "material",
      "density", "diameter_tolerance", "discontinued"]
  | "variant" => ["id", "filament_id", "slug", "name", "color_hex",
      "hex_variants", "color_standards", "traits", "discontinued"]
  | "size" => ["id", "variant_id", "filament_weight", "diameter", "empty_spool_weight",
      "spool_core_diameter", "gtin", "article_number", "discontinued"]
  | "store" => ["id", "name", "slug", "storefront_url", "logo_name", "ships_from", "ships_to"]
  | "purchase_link" => ["id", "size_id", "store_id", "url", "spool_refill",
      "ships_from", "ships_to"]
  | _ => []

/-- `csv_exporter._INTERNAL_KEYS`. -/
def internalKeys : List String := ["directory_name"]

/-- Lines 37-47 of `_derive_headers`: the key set observed across all
rows (a Python `set`, modelled by a deduplicated list consumed only
through membership and sorting), minus the internal keys, with the
`logo` → `logo_name` rename applied. -/
def adjustedKeySet (entities : List Obj) : List String :=
  let all0 := (entities.flatMap (fun e => e.map Prod.fst)).dedup
  let all1 := all0.filter (fun k => ¬ k ∈ internalKeys)
  if "logo" ∈ all1 then
    let erased := all1.filter (fun k => k ≠ "logo")
    if "logo_name" ∈ erased then erased else erased ++ ["logo_name"]
  else all1

def derive_headers (entities : List Obj) (entity_type : String) : List String :=
  let all2 := adjustedKeySet entities
  let ordered := (keyOrder entity_type).filter (fun k => k ∈ all2)
  let remaining := (all2.filter (fun k => ¬ k ∈ ordered)).insertionSort (· ≤ ·)
  ordered ++ remaining

/-- One row of Python's `csv.writer` with the default dialect: fields
containing a delimiter, quote or line break are quoted (doubling inner
quotes), the line is `,`-joined and `\r\n`-terminated. -/
def csvField (s : String) : String :=
  if s.data.any (fun c => c = ',' || c = '"' || c = '\n' || c = '\r') then
    "\"" ++ ⟨s.data.flatMap (fun c => if c = '"' then ['"', '"'] else [c])⟩ ++ "\""
  else s

def csvRow (fields : List String) : String :=
  String.intercalate "," (fields.map csvField) ++ "\r\n"

/-- `csv_exporter._export_entity_csv`, as the text content written to the
entity type's CSV file: an empty collection writes nothing at all (the
file is created and left at zero bytes, lines 65-68); otherwise the
header row followed by one row per entity. -/
def export_entity_csv (entities : List Obj) (entity_type : String) : String :=
  if entities.isEmpty then ""
  else
    let headers := derive_headers entities entity_type
    csvRow headers ++ String.join (entities.map (fun e =>
      let exported := entity_to_dict e
      csvRow (headers.map (fun h => serialize_for_csv (exported.get? h)))))

/-- `csv_exporter.export_csv`: the seven (filename, content) artifacts. -/
def export_csv (db : Database) : List (String × String) :=
  [("brands.csv", export_entity_csv db.brands "brand"),
   ("materials.csv", export_entity_csv db.materials "material"),
   ("filaments.csv", export_entity_csv db.filaments "filament"),
   ("variants.csv", export_entity_csv db.variants "variant"),
   ("sizes.csv", export_entity_csv db.sizes "size"),
   ("stores.csv", export_entity_csv db.stores "store"),
   ("purchase_links.csv", export_entity_csv db.purchase_links "purchase_link")]

/-! ## Dictionary lemmas -/

def c4Data : Dir :=
  .node [] [("brandx", .node [("brand.json", some (.obj []))]
    [("pla", .node [("material.json", none)]
      [("basic", .node [("filament.json", some (.obj []))] [])])])]

/-- Whether any row of the collection carries key `k`. -/
def observedKey (entities : List Obj) (k : String) : Bool :=
  entities.any (fun e => e.any (fun p => p.1 = k))

/-- The key set described by the amended claim: a key participates in the
header iff it is observed — after dropping the internal `directory_name`,
with an observed `logo` appearing as `logo_name` instead. -/
def adjustedKey (entities : List Obj) (k : String) : Bool :=
  if k = "directory_name" then false
  else if k = "logo" then false
  else if k = "logo_name" then observedKey entities "logo_name" || observedKey entities "logo"
  else observedKey entities k

/-- The keys observed across the rows with only the internal key removed
(no rename) — the raw-key reading used by claim C9 as stated. -/
def observedKeysNoInternal (entities : List Obj) : List String :=
  ((entities.flatMap (fun e => e.map Prod.fst)).dedup).filter (fun k => k ≠ "directory_name")

/-- The header formula exactly as claim C9 states it: the type's fixed
preferred ordering restricted to keys actually observed across the rows,
followed by every other observed key in alphabetical order. -/
def specHeadersClaimed (entities : List Obj) (et : String) : List String :=
  (keyOrder et).filter (fun k => k ∈ observedKeysNoInternal entities) ++
    ((observedKeysNoInternal entities).filter (fun k => ¬ k ∈ keyOrder et)).insertionSort (· ≤ ·)

/-- A crawl step only ever appends to the snapshot collections. -/
structure Grows (s t : CrawlState) : Prop where
  brands : ∃ l, t.brands = s.brands ++ l
  materials : ∃ l, t.materials = s.materials ++ l
  filaments : ∃ l, t.filaments = s.filaments ++ l
  variants : ∃ l, t.variants = s.variants ++ l
  sizes : ∃ l, t.sizes = s.sizes ++ l
  stores : ∃ l, t.stores = s.stores ++ l
  purchase_links : ∃ l, t.purchase_links = s.purchase_links ++ l

/-- An entity's computed identifier. -/
def hasId (o : Obj) (v : String) : Prop := Obj.get? o "id" = some (.str v)

/-- Every entity of `src` carries a string-valued `field` that equals the
`id` of some entity of `tgt`. -/
def resolves (src : List Obj) (field : String) (tgt : List Obj) : Prop :=
  ∀ o ∈ src, ∃ v, Obj.get? o field = some (.str v) ∧ ∃ t ∈ tgt, hasId t v

/-- The seven foreign-key resolution facts of the snapshot. -/
structure Integrity (s : CrawlState) : Prop where
  pl_store : resolves s.purchase_links "store_id" s.stores
  pl_size : resolves s.purchase_links "size_id" s.sizes
  size_variant : resolves s.sizes "variant_id" s.variants
  variant_filament : resolves s.variants "filament_id" s.filaments
  filament_material : resolves s.filaments "material_id" s.materials
  filament_brand : resolves s.filaments "brand_id" s.brands
  material_brand : resolves s.materials "brand_id" s.brands

def colonFreeStr (x : String) : Prop := ¬ ':' ∈ x.data

/-- Every value of the store cache is the id of a store present in the
snapshot. -/
def storeCacheOk (s : CrawlState) : Prop :=
  ∀ p ∈ s.storeCache, ∃ t ∈ s.stores, hasId t p.2

/-- Every entry of the material dedup cache decodes unambiguously into a
(brand id, material directory name) pair — the brand id colon-free — whose
generated material id is the entry's value, and that material is in the
snapshot. -/
def materialCacheOk (s : CrawlState) : Prop :=
  ∀ p ∈ s.materialCache, (∃ b m, p.1 = b ++ ":" ++ m ∧ colonFreeStr b ∧
    p.2 = generate_material_id b m) ∧ ∃ t ∈ s.materials, hasId t p.2

structure CrawlInv (s : CrawlState) : Prop where
  integ : Integrity s
  stCache : storeCacheOk s
  matCache : materialCacheOk s

/-- The step relation threaded through every loop of the crawl: the
collections grow, and the invariant together with the loop's context is
preserved. -/
def StepP (ctx : CrawlState → Prop) (a b : CrawlState) : Prop :=
  Grows a b ∧ ((CrawlInv a ∧ ctx a) → (CrawlInv b ∧ ctx b))

def sizeCtx (size_id : String) (t : CrawlState) : Prop := ∃ x ∈ t.sizes, hasId x size_id

def variantCtx (variant_id : String) (t : CrawlState) : Prop :=
  ∃ x ∈ t.variants, hasId x variant_id

def filamentCtx (filament_id : String) (t : CrawlState) : Prop :=
  ∃ x ∈ t.filaments, hasId x filament_id

def materialCtx (material_id : String) (t : CrawlState) : Prop :=
  ∃ x ∈ t.materials, hasId x material_id

def brandCtx (brand_id : String) (t : CrawlState) : Prop :=
  (∃ x ∈ t.brands, hasId x brand_id) ∧ colonFreeStr brand_id

def c2Stores : Dir :=
  .node [] [("acme", .node [("store.json",
    some (.obj [("id", .str "acme-store"), ("name", .str "Acme")]))] [])]

def c2Data : Dir :=
  .node [] [("brandx", .node [("brand.json", some (.obj []))]
    [("pla", .node [("material.json", some (.obj []))]
      [("basic", .node [("filament.json", some (.obj []))]
        [("red", .node
          [("variant.json", some (.obj [("id", .str "red"), ("color_hex", .str "#ff0000")])),
           ("sizes.json", some (.arr [.obj [("filament_weight", .int 1000),
              ("purchase_links", .arr [.obj [("store_id", .str "acme-store"),
                ("url", .str "https://x/y")]])]]))] [])])])])]

def c6Dir : Dir :=
  .node [("variant.json", some (.obj [("id", .str "v1"), ("hex_variants", .arr [])]))] []

def c6WitDir : Dir :=
  .node [("variant.json", some (.obj [("id", .str "v1"),
    ("hex_variants", .arr [.str "#abc123", .str ""])]))] []

/-- The 16 characters allowed in a normalized (uppercase) hex color. -/
def upperHexDigits : List Char :=
  ['A', 'B', 'C', '0', '1', '2', '3', '4', 'D', 'E', 'F', '5', '6', '7', '8', '9']

/-- A six-hex-digit, `#`-prefixed, uppercase color string. -/
def isNormHex (s : String) : Bool :=
  match s.data with
  | c :: body => c = '#' && body.length = 6 && body.all (fun x => upperHexDigits.contains x)
  | _ => false

def c7Dir : Dir :=
  .node [("variant.json", some (.obj [("id", .str "v1"),
    ("color_hex", .arr [.str "zz"])]))] []

def c7WitDir : Dir :=
  .node [("variant.json", some (.obj [("id", .str "v1"),
    ("color_hex", .arr [.str "#AbC123", .str "#000000"])]))] []

def c8Stores : Dir :=
  .node [] [("acme", .node [("store.json",
    some (.obj [("id", .str "acme-store"), ("name", .str "Acme")]))] [])]

def c8Data : Dir :=
  .node [] [("brandx", .node [("brand.json", some (.obj []))]
    [("pla", .node [("material.json", some (.obj []))]
      [("basic", .node [("filament.json", some (.obj []))]
        [("red", .node
          [("variant.json", some (.obj [("id", .str "red"), ("color_hex", .str "#ff0000")])),
           ("sizes.json", some (.arr [.obj [("filament_weight", .int 1000),
              ("purchase_links", .arr [.obj [("store_id", .str "missing"),
                ("url", .str "https://x/y")]])]]))] [])])])])]

def isNullJ : Json → Bool
  | .null => true
  | _ => false

/-- An optional field that slugification tolerates: absent (the string
default is used) or a string. -/
def isStrOptOk : Option Json → Bool
  | some (.str _) => true
  | none => true
  | _ => false

/-- A purchase-link entry the crawler survives: a JSON object whose
store_id, when it and the url are truthy, is hashable. -/
def goodPlEntry : Json → Bool
  | .obj pl =>
      !(Obj.getD pl "store_id" Json.null).truthy ||
      !(Obj.getD pl "url" Json.null).truthy ||
      hashable (Obj.getD pl "store_id" Json.null)
  | _ => false

/-- A sizes.json entry the crawler survives: a JSON object whose
filament_weight is absent (warning only) or convertible by `int(·)`,
whose effective diameter is convertible by `float(·)`, and whose
purchase_links value is iterable with every entry good. -/
def goodSizeEntry : Json → Bool
  | .obj e =>
      isNullJ (Obj.getD e "filament_weight" Json.null) ||
      ((pyInt? (Obj.getD e "filament_weight" Json.null)).isSome &&
       (pyFloat? (if (Obj.getD e "diameter" (.float .onePoint75)).truthy then
           Obj.getD e "diameter" (.float .onePoint75) else .float .onePoint75)).isSome &&
       (match pyIterate (Obj.getD e "purchase_links" (.arr [])) with
        | .ok pls => pls.all goodPlEntry
        | .error _ => false))
  | _ => false

def goodSizesDoc : Option Json → Bool
  | none => true
  | some sd => (match sd with | .arr xs => xs | v => [v]).all goodSizeEntry

def goodVariantDir (d : Dir) : Bool :=
  match d.file? "variant.json" with
  | none => true
  | some none => true
  | some (some (.obj vd)) =>
      isStrOptOk (Obj.get? vd "id") &&
      (hexVariantsNew (Obj.getD vd "hex_variants" Json.null)).isOk &&
      (match d.file? "sizes.json" with
       | none => true
       | some c => goodSizesDoc c)
  | some (some _) => false

def goodFilamentDir (d : Dir) : Bool :=
  match d.file? "filament.json" with
  | none => true
  | some none => true
  | some (some (.obj fd)) =>
      isStrOptOk (Obj.get? fd "name") &&
      d.visible.all (fun p => goodVariantDir p.2)
  | some (some _) => false

def goodMaterialDir (d : Dir) : Bool :=
  (match d.file? "material.json" with
   | some (some (.obj _)) => true
   | some (some _) => false
   | _ => true) &&
  d.visible.all (fun p => goodFilamentDir p.2)

def goodBrandDir (d : Dir) : Bool :=
  match d.file? "brand.json" with
  | none => true
  | some none => true
  | some (some (.obj _)) => d.visible.all (fun p => goodMaterialDir p.2)
  | some (some _) => false

def goodStoreDir (d : Dir) : Bool :=
  match d.file? "store.json" with
  | none => true
  | some none => true
  | some (some (.obj data)) =>
      !(Obj.getD data "id" Json.null).truthy ||
      (isStrOptOk (Obj.get? data "name") && hashable (Obj.getD data "id" Json.null))
  | some (some _) => false

def goodDataDir (d : Dir) : Bool := d.visible.all (fun p => goodBrandDir p.2)

def goodStoresDir (d : Dir) : Bool := d.visible.all (fun p => goodStoreDir p.2)

def c1BadData : Dir :=
  .node [] [("brandx", .node [("brand.json", some (.obj []))]
    [("pla", .node [("material.json", some (.obj []))]
      [("basic", .node [("filament.json", some (.obj []))]
        [("red", .node
          [("variant.json", some (.obj [("id", .str "red")])),
           ("sizes.json", some (.arr [.obj [("filament_weight", .str "abc")]]))] [])])])])]

def c1GoodStores : Dir :=
  .node [] [("acme", .node [("store.json", some (.obj [("id", .str "acme-store")]))] [])]

def c1GoodData : Dir :=
  .node [] [("brandy", .node [("brand.json", some (.obj []))]
    [("petg", .node [("material.json", some (.obj []))]
      [("plus", .node [("filament.json", some (.obj []))]
        [("blue", .node
          [("variant.json", some (.obj [("id", .str "blue")])),
           ("sizes.json", some (.arr [.obj [("filament_weight", .int 750),
              ("purchase_links", .arr [.obj [("store_id", .str "acme-store"),
                ("url", .str "https://a/b")]])]]))] [])])])])]

def c3Stores : Dir :=
  .node [] [("a", .node [("store.json", some (.obj [("id", .str "x")]))] []),
            ("b", .node [("store.json", some (.obj [("id", .str "x")]))] [])]

def c3Entry : Json :=
  .obj [("filament_weight", .int 1000), ("diameter", .float ⟨175, 2⟩)]

theorem find?_append_or (l1 l2 : List α) (p : α → Bool) :
    (l1 ++ l2).find? p = ((l1.find? p).or (l2.find? p)) := by
  induction l1 with
  | nil => simp
  | cons x xs ih =>
      by_cases hx : p x
      · simp [List.find?_cons, hx]
      · simp [List.find?_cons, hx, ih]

theorem find?_map_replace_eq (xs : Obj) (k : String) (v : Json) :
    ((xs.map (fun p => if p.1 = k then (k, v) else p)).find? (fun p => p.1 = k)) =
      (xs.find? (fun p => p.1 = k)).map (fun _ => (k, v)) := by
  induction xs with
  | nil => rfl
  | cons x xs ih =>
      by_cases hx : x.1 = k
      · rw [List.map_cons, if_pos hx,
          List.find?_cons_of_pos _ (by simp),
          List.find?_cons_of_pos _ (by simpa using hx)]
        rfl
      · rw [List.map_cons, if_neg hx,
          List.find?_cons_of_neg _ (by simpa using hx),
          List.find?_cons_of_neg _ (by simpa using hx)]
        exact ih

theorem find?_map_replace_ne (xs : Obj) (k k' : String) (v : Json) (hkk : k' ≠ k) :
    ((xs.map (fun p => if p.1 = k then (k, v) else p)).find? (fun p => p.1 = k')) =
      xs.find? (fun p => p.1 = k') := by
  induction xs with
  | nil => rfl
  | cons x xs ih =>
      by_cases hx : x.1 = k
      · rw [List.map_cons, if_pos hx,
          List.find?_cons_of_neg _
            (by simp only [decide_eq_true_eq]; exact fun hh => hkk hh.symm),
          List.find?_cons_of_neg _
            (by simp only [hx, decide_eq_true_eq]; exact fun hh => hkk hh.symm)]
        exact ih
      · by_cases hx' : x.1 = k'
        · rw [List.map_cons, if_neg hx,
            List.find?_cons_of_pos _ (by simpa using hx'),
            List.find?_cons_of_pos _ (by simpa using hx')]
        · rw [List.map_cons, if_neg hx,
            List.find?_cons_of_neg _ (by simpa using hx'),
            List.find?_cons_of_neg _ (by simpa using hx')]
          exact ih

theorem Obj.get?_set_self (o : Obj) (k : String) (v : Json) :
    (o.set k v).get? k = some v := by
  unfold Obj.set Obj.get?
  by_cases h : o.any (fun p => p.1 = k)
  · rw [if_pos h, find?_map_replace_eq]
    rcases ho : o.find? (fun p => decide (p.1 = k)) with _ | y
    · exfalso
      rw [List.find?_eq_none] at ho
      rw [List.any_eq_true] at h
      obtain ⟨x, hx, hpx⟩ := h
      exact absurd hpx (by simpa using ho x hx)
    · rw [ho]
      rfl
  · rw [if_neg h]
    have hnone : o.find? (fun p => decide (p.1 = k)) = none := by
      rw [List.find?_eq_none]
      intro x hx
      by_contra hpx
      exact h (List.any_eq_true.mpr ⟨x, hx, by simpa using hpx⟩)
    rw [find?_append_or, hnone]
    rw [List.find?_cons_of_pos _ (by simp)]
    rfl

theorem Obj.get?_set_ne (o : Obj) (k k' : String) (v : Json) (hkk : k' ≠ k) :
    (o.set k v).get? k' = o.get? k' := by
  unfold Obj.set Obj.get?
  by_cases h : o.any (fun p => p.1 = k)
  · rw [if_pos h, find?_map_replace_ne _ _ _ _ hkk]
  · rw [if_neg h, find?_append_or]
    have hone : ([((k, v))].find? (fun p => p.1 = k')) = none := by
      rw [List.find?_cons_of_neg _
        (by simp only [decide_eq_true_eq]; exact fun hh => hkk hh.symm)]
      rfl
    rw [hone, Option.or_none]

theorem Obj.get?_remove_ne (o : Obj) (k k' : String) (hkk : k' ≠ k) :
    (o.remove k).get? k' = o.get? k' := by
  unfold Obj.remove Obj.get?
  induction o with
  | nil => rfl
  | cons x xs ih =>
      by_cases hx : x.1 = k
      · rw [List.filter_cons_of_neg (by simpa using hx),
          List.find?_cons_of_neg _
            (by simp only [hx, decide_eq_true_eq]; exact fun hh => hkk hh.symm)]
        exact ih
      · rw [List.filter_cons_of_pos (by simpa using hx)]
        by_cases hx' : x.1 = k'
        · rw [List.find?_cons_of_pos _ (by simpa using hx'),
            List.find?_cons_of_pos _ (by simpa using hx')]
        · rw [List.find?_cons_of_neg _ (by simpa using hx'),
            List.find?_cons_of_neg _ (by simpa using hx')]
          exact ih

theorem Obj.get?_remove_self (o : Obj) (k : String) :
    (o.remove k).get? k = none := by
  unfold Obj.remove Obj.get?
  rw [Option.map_eq_none', List.find?_eq_none]
  intro x hx
  have := List.of_mem_filter hx
  simpa using this

/-! ## Properties of the identifier encoding -/

theorem escChar_cases (c : Char) :
    (c = ':' ∧ escChar c = ['~', 'c']) ∨ (c = '|' ∧ escChar c = ['~', 'p']) ∨
    (c = '~' ∧ escChar c = ['~', 't']) ∨
    (c ≠ ':' ∧ c ≠ '|' ∧ c ≠ '~' ∧ escChar c = [c]) := by
  unfold escChar
  split_ifs with h1 h2 h3 <;> simp_all

theorem colon_not_mem_escChar (c : Char) : ':' ∉ escChar c := by
  rcases escChar_cases c with ⟨_, h⟩ | ⟨_, h⟩ | ⟨_, h⟩ | ⟨hc, _, _, h⟩ <;>
    rw [h] <;> simp
  exact fun hh => hc hh.symm

theorem pipe_not_mem_escChar (c : Char) : '|' ∉ escChar c := by
  rcases escChar_cases c with ⟨_, h⟩ | ⟨_, h⟩ | ⟨_, h⟩ | ⟨_, hc, _, h⟩ <;>
    rw [h] <;> simp
  exact fun hh => hc hh.symm

theorem colon_not_mem_escStr (s : String) : ':' ∉ escStr s := by
  unfold escStr
  intro h
  rw [List.mem_flatMap] at h
  obtain ⟨c, _, hc⟩ := h
  exact colon_not_mem_escChar c hc

theorem pipe_not_mem_escStr (s : String) : '|' ∉ escStr s := by
  unfold escStr
  intro h
  rw [List.mem_flatMap] at h
  obtain ⟨c, _, hc⟩ := h
  exact pipe_not_mem_escChar c hc

theorem escList_inj : ∀ l1 l2 : List Char,
    l1.flatMap escChar = l2.flatMap escChar → l1 = l2 := by
  intro l1
  induction l1 with
  | nil =>
      intro l2 h
      cases l2 with
      | nil => rfl
      | cons d ds =>
          exfalso
          rcases escChar_cases d with ⟨_, hd⟩ | ⟨_, hd⟩ | ⟨_, hd⟩ | ⟨_, _, _, hd⟩ <;>
            simp [hd] at h
  | cons c cs ih =>
      intro l2 h
      cases l2 with
      | nil =>
          exfalso
          rcases escChar_cases c with ⟨_, hc⟩ | ⟨_, hc⟩ | ⟨_, hc⟩ | ⟨_, _, _, hc⟩ <;>
            simp [hc] at h
      | cons d ds =>
          simp only [List.flatMap_cons] at h
          rcases escChar_cases c with ⟨hc0, hc⟩ | ⟨hc0, hc⟩ | ⟨hc0, hc⟩ | ⟨hc1, hc2, hc3, hc⟩ <;>
            rcases escChar_cases d with ⟨hd0, hd⟩ | ⟨hd0, hd⟩ | ⟨hd0, hd⟩ | ⟨hd1, hd2, hd3, hd⟩ <;>
            rw [hc, hd] at h <;>
            simp only [List.cons_append, List.nil_append, List.cons.injEq] at h
          all_goals try (exact absurd h.2.1 (by decide))
          all_goals try (subst hc0; subst hd0; exact congrArg _ (ih ds h.2.2))
          · exact absurd h.1 (fun hh => hd3 hh.symm)
          · exact absurd h.1 (fun hh => hd3 hh.symm)
          · exact absurd h.1 (fun hh => hd3 hh.symm)
          · exact absurd h.1 hc3
          · exact absurd h.1 hc3
          · exact absurd h.1 hc3
          · rw [h.1]
            exact congrArg _ (ih ds h.2)

theorem escStr_inj (s1 s2 : String) (h : escStr s1 = escStr s2) : s1 = s2 := by
  cases s1 with
  | mk l1 =>
      cases s2 with
      | mk l2 =>
          unfold escStr at h
          exact congrArg String.mk (escList_inj l1 l2 h)

/-- Splitting a concatenation at a separator character that the left parts
avoid and the right parts start with (or are empty). -/
theorem sep_split : ∀ a b r1 r2 : List Char,
    '|' ∉ a → '|' ∉ b →
    (r1 = [] ∨ ∃ t, r1 = '|' :: t) → (r2 = [] ∨ ∃ t, r2 = '|' :: t) →
    a ++ r1 = b ++ r2 → a = b ∧ r1 = r2 := by
  intro a
  induction a with
  | nil =>
      intro b r1 r2 _ hb hr1 hr2 h
      cases b with
      | nil => exact ⟨rfl, h⟩
      | cons y ys =>
          exfalso
          rcases hr1 with rfl | ⟨t, rfl⟩
          · simp at h
          · rw [List.nil_append] at h
            have : y = '|' := by
              have := congrArg (fun l => l.head?) h
              simpa using this.symm
            exact hb (this ▸ List.mem_cons_self y ys)
  | cons x xs ih =>
      intro b r1 r2 ha hb hr1 hr2 h
      cases b with
      | nil =>
          exfalso
          rcases hr2 with rfl | ⟨t, rfl⟩
          · simp at h
          · rw [List.nil_append] at h
            have : x = '|' := by
              have := congrArg (fun l => l.head?) h
              simpa using this
            exact ha (this ▸ List.mem_cons_self x xs)
      | cons y ys =>
          simp only [List.cons_append, List.cons.injEq] at h
          have hx : '|' ∉ xs := fun hh => ha (List.mem_cons_of_mem _ hh)
          have hy : '|' ∉ ys := fun hh => hb (List.mem_cons_of_mem _ hh)
          obtain ⟨h1, h2⟩ := ih ys r1 r2 hx hy hr1 hr2 h.2
          exact ⟨by rw [h.1, h1], h2⟩

theorem keyChain_shape (ks : List String) :
    ks.flatMap (fun k => '|' :: escStr k) = [] ∨
    ∃ t, ks.flatMap (fun k => '|' :: escStr k) = '|' :: t := by
  cases ks with
  | nil => exact Or.inl rfl
  | cons k t => exact Or.inr ⟨escStr k ++ t.flatMap (fun k => '|' :: escStr k), by simp⟩

theorem keyChain_inj : ∀ ks1 ks2 : List String,
    ks1.flatMap (fun k => '|' :: escStr k) = ks2.flatMap (fun k => '|' :: escStr k) →
    ks1 = ks2 := by
  intro ks1
  induction ks1 with
  | nil =>
      intro ks2 h
      cases ks2 with
      | nil => rfl
      | cons k t => simp at h
  | cons k1 t1 ih =>
      intro ks2 h
      cases ks2 with
      | nil => simp at h
      | cons k2 t2 =>
          simp only [List.flatMap_cons, List.cons_append, List.cons.injEq, true_and] at h
          obtain ⟨h1, h2⟩ := sep_split (escStr k1) (escStr k2) _ _
            (pipe_not_mem_escStr k1) (pipe_not_mem_escStr k2)
            (keyChain_shape t1) (keyChain_shape t2) h
          rw [escStr_inj k1 k2 h1, ih t2 h2]

/-- The identifier derivation is injective for a fixed entity-type tag. -/
theorem genId_inj (tag : String) (ks1 ks2 : List String)
    (h : genId tag ks1 = genId tag ks2) : ks1 = ks2 := by
  unfold genId at h
  have hd : escStr tag ++ ks1.flatMap (fun k => '|' :: escStr k) =
      escStr tag ++ ks2.flatMap (fun k => '|' :: escStr k) := by
    have := congrArg String.data h
    simpa using this
  exact keyChain_inj ks1 ks2 (List.append_cancel_left hd)

/-- No identifier the generator produces contains a colon — the property
that keeps the crawler's `f"{brand_id}:{material_name}"` material-cache
key unambiguous. -/
theorem genId_colon_free (tag : String) (ks : List String) :
    ':' ∉ (genId tag ks).data := by
  unfold genId
  intro h
  simp only [List.mem_append] at h
  rcases h with h | h
  · exact colon_not_mem_escStr tag h
  · rw [List.mem_flatMap] at h
    obtain ⟨k, _, hk⟩ := h
    rw [List.mem_cons] at hk
    rcases hk with hk | hk
    · exact absurd hk (by decide)
    · exact colon_not_mem_escStr k hk

theorem indexKey_inj (m n : Nat) (h : indexKey m = indexKey n) : m = n := by
  have := congrArg (fun s => s.data.length) h
  simpa [indexKey] using this

/-- Splitting at the colon of a material-cache key whose left component is
colon-free. -/
theorem colon_split : ∀ a b r1 r2 : List Char,
    ':' ∉ a → ':' ∉ b → a ++ ':' :: r1 = b ++ ':' :: r2 → a = b ∧ r1 = r2 := by
  intro a
  induction a with
  | nil =>
      intro b r1 r2 _ hb h
      cases b with
      | nil => simpa using h
      | cons y ys =>
          exfalso
          rw [List.nil_append] at h
          have : y = ':' := by
            have := congrArg (fun l => l.head?) h
            simpa using this.symm
          exact hb (this ▸ List.mem_cons_self y ys)
  | cons x xs ih =>
      intro b r1 r2 ha hb h
      cases b with
      | nil =>
          exfalso
          rw [List.nil_append] at h
          have : x = ':' := by
            have := congrArg (fun l => l.head?) h
            simpa using this
          exact ha (this ▸ List.mem_cons_self x xs)
      | cons y ys =>
          simp only [List.cons_append, List.cons.injEq] at h
          have hx : ':' ∉ xs := fun hh => ha (List.mem_cons_of_mem _ hh)
          have hy : ':' ∉ ys := fun hh => hb (List.mem_cons_of_mem _ hh)
          obtain ⟨h1, h2⟩ := ih ys r1 r2 hx hy h.2
          exact ⟨by rw [h.1, h1], h2⟩

theorem cacheKey_inj (b1 m1 b2 m2 : String)
    (hb1 : ':' ∉ b1.data) (hb2 : ':' ∉ b2.data)
    (h : b1 ++ ":" ++ m1 = b2 ++ ":" ++ m2) : b1 = b2 ∧ m1 = m2 := by
  have hd := congrArg String.data h
  simp only [String.data_append] at hd
  have hd' : b1.data ++ ':' :: m1.data = b2.data ++ ':' :: m2.data := by
    simpa using hd
  obtain ⟨h1, h2⟩ := colon_split b1.data b2.data m1.data m2.data hb1 hb2 hd'
  constructor
  · cases b1; cases b2; exact congrArg String.mk h1
  · cases m1; cases m2; exact congrArg String.mk h2

/-! ## Generic lemmas about the crawl loops -/

theorem runList_rel {α : Type} {f : α → CrawlState → Except String CrawlState}
    {P : CrawlState → CrawlState → Prop}
    (hrefl : ∀ s, P s s) (htrans : ∀ {a b c}, P a b → P b c → P a c) :
    ∀ (xs : List α), (∀ x ∈ xs, ∀ t t', f x t = .ok t' → P t t') →
      ∀ s s', runList f xs s = .ok s' → P s s' := by
  intro xs
  induction xs with
  | nil =>
      intro _ s s' h
      simp only [runList, Except.ok.injEq] at h
      subst h
      exact hrefl _
  | cons x t ih =>
      intro hall s s' h
      unfold runList at h
      cases hfx : f x s with
      | error e => rw [hfx] at h; cases h
      | ok m =>
          rw [hfx] at h
          exact htrans (hall x (by simp) s m hfx)
            (ih (fun y hy => hall y (by simp [hy])) m s' h)

theorem runList_isOk {α : Type} {f : α → CrawlState → Except String CrawlState} :
    ∀ (xs : List α), (∀ x ∈ xs, ∀ t, ∃ t', f x t = .ok t') →
      ∀ s, ∃ s', runList f xs s = .ok s' := by
  intro xs
  induction xs with
  | nil => exact fun _ s => ⟨s, rfl⟩
  | cons x t ih =>
      intro hall s
      obtain ⟨m, hm⟩ := hall x (by simp) s
      obtain ⟨s', hs'⟩ := ih (fun y hy => hall y (by simp [hy])) m
      refine ⟨s', ?_⟩
      unfold runList
      rw [hm]
      exact hs'

/-! ## Claim C10 — empty and non-empty tabular exports -/

/-- C10: for every entity type the tabular export still produces the
type's CSV artifact (all seven files are always listed); an empty
collection writes a completely empty file — zero bytes, no header row —
and for a non-empty collection the header row is the first thing in the
file. -/
theorem C10_csv_empty_zero_bytes (db : Database) (entities : List Obj) (et : String) :
    ((export_csv db).map Prod.fst =
      ["brands.csv", "materials.csv", "filaments.csv", "variants.csv",
       "sizes.csv", "stores.csv", "purchase_links.csv"]) ∧
    (entities = [] → export_entity_csv entities et = "") ∧
    (entities ≠ [] → ∃ rest, export_entity_csv entities et =
      csvRow (derive_headers entities et) ++ rest) := by
  refine ⟨rfl, ?_, ?_⟩
  · rintro rfl
    rfl
  · intro h
    refine ⟨String.join (entities.map (fun e =>
      csvRow ((derive_headers entities et).map
        (fun hh => serialize_for_csv ((entity_to_dict e).get? hh))))), ?_⟩
    unfold export_entity_csv
    rw [if_neg (by simpa [List.isEmpty_iff] using h)]

/-- Witness for C10 at concrete inputs. -/
theorem C10_csv_empty_zero_bytes_witness :
    export_entity_csv [] "brand" = "" ∧
    ∃ rest, export_entity_csv [[("id", Json.str "b1")]] "brand" =
      csvRow (derive_headers [[("id", Json.str "b1")]] "brand") ++ rest :=
  ⟨(C10_csv_empty_zero_bytes ⟨[], [], [], [], [], [], []⟩ [] "brand").2.1 rfl,
   (C10_csv_empty_zero_bytes ⟨[], [], [], [], [], [], []⟩
     [[("id", Json.str "b1")]] "brand").2.2 (by simp)⟩

/-! ## Claim C5 — store directory lacking its marker document -/

/-- C5 counterexample: a store directory without `store.json` is skipped
with *no* warning at all — the diagnostics log stays empty (the claim
asserts a "MissingFile" warning is recorded as for brands). -/
theorem C5_counterexample :
    ∃ st, crawl_data (some (Dir.node [] []))
        (some (Dir.node [] [("acme", Dir.node [] [])])) = .ok st ∧
      st.warnings = [] ∧ st.stores = [] :=
  ⟨initialState, rfl, rfl, rfl⟩

/-- C5 (amended): a store directory lacking `store.json` is skipped
silently — no warning, no Store entity, never fatal — unlike a brand
directory lacking `brand.json`, which records a "Missing File" warning
before being skipped. -/
theorem C5_store_marker_silent_skip (storesPath name dataPath bname : String)
    (d bd : Dir) (s : CrawlState)
    (hs : d.file? "store.json" = none) (hb : bd.file? "brand.json" = none) :
    processStoreDirectory storesPath name d s = .ok s ∧
    processBrandDirectory dataPath bname bd s =
      .ok (addWarning s "Missing File" "Missing brand.json" (dataPath ++ "/" ++ bname)) := by
  constructor
  · unfold processStoreDirectory
    rw [hs]
  · unfold processBrandDirectory
    rw [hb]

/-- Witness for C5 at concrete inputs. -/
theorem C5_store_marker_silent_skip_witness :
    processStoreDirectory "stores" "acme" (Dir.node [] []) initialState = .ok initialState ∧
    processBrandDirectory "data" "bx" (Dir.node [] []) initialState =
      .ok (addWarning initialState "Missing File" "Missing brand.json" ("data" ++ "/" ++ "bx")) :=
  C5_store_marker_silent_skip "stores" "acme" "data" "bx" (Dir.node [] []) (Dir.node [] [])
    initialState rfl rfl

/-! ## Claim C4 — material directory with malformed material.json -/

/-- C4 counterexample: with a malformed `material.json`, the crawler
records the parse warning but does *not* skip the node — a Material
entity is still created (synthesized from the directory name) and the
filament subdirectory beneath it is still visited. -/
theorem C4_counterexample :
    ∃ st, crawl_data (some c4Data) (some (Dir.node [] [])) = .ok st ∧
      st.materials.length = 1 ∧ st.filaments.length = 1 ∧
      st.warnings.map Warning.category = ["JSON Parse"] :=
  ⟨_, rfl, rfl, rfl, rfl⟩

/-- C4 (amended): for a material directory whose `material.json` exists
but is malformed, the crawler records a "JSON Parse" warning and
continues: when the dedup cache misses, a default Material synthesized
from the directory name is appended and the material-cache entry written,
and the filament subdirectories are visited either way. -/
theorem C4_material_malformed_not_skipped (parentPath name : String) (d : Dir)
    (brand_id : String) (s : CrawlState)
    (hfile : d.file? "material.json" = some none)
    (hmiss : strCacheGet? s.materialCache (brand_id ++ ":" ++ name) = none) :
    processMaterialDirectory parentPath name d brand_id s =
      runList (fun p => processFilamentDirectory (parentPath ++ "/" ++ name) p.1 p.2
          brand_id (generate_material_id brand_id name) name) d.visible
        { s with
          warnings := s.warnings ++ [⟨"JSON Parse", "Failed to parse",
            parentPath ++ "/" ++ name ++ "/material.json"⟩],
          materials := s.materials ++
            [mkMaterial [] (generate_material_id brand_id name) brand_id name],
          materialCache := strCacheSet s.materialCache (brand_id ++ ":" ++ name)
            (generate_material_id brand_id name) } := by
  unfold processMaterialDirectory materialDocResolve
  rw [hfile]
  simp only [hmiss, asObj, addWarning, Option.isNone_none, if_true]
  rfl

/-- Witness for C4's amended theorem at a concrete input. -/
theorem C4_material_malformed_not_skipped_witness :
    processMaterialDirectory "data/brandx" "pla" (Dir.node [("material.json", none)] [])
        "B" initialState =
      runList (fun p => processFilamentDirectory ("data/brandx" ++ "/" ++ "pla") p.1 p.2
          "B" (generate_material_id "B" "pla") "pla") (Dir.node [("material.json", none)] []).visible
        { initialState with
          warnings := initialState.warnings ++ [⟨"JSON Parse", "Failed to parse",
            "data/brandx" ++ "/" ++ "pla" ++ "/material.json"⟩],
          materials := initialState.materials ++
            [mkMaterial [] (generate_material_id "B" "pla") "B" "pla"],
          materialCache := strCacheSet initialState.materialCache ("B" ++ ":" ++ "pla")
            (generate_material_id "B" "pla") } :=
  C4_material_malformed_not_skipped "data/brandx" "pla" _ "B" initialState rfl rfl

/-! ## Claim C9 — tabular header derivation -/

/-- C9 counterexample: a brand row carrying only the `logo` key.  The
exporter's header is `["logo_name"]` — a key observed in *no* row — while
the claim's formula predicts `["logo"]`; the two disagree, refuting both
the "restricted to keys actually observed" clause and the "a key not
present in any row never appears" clause. -/
theorem C9_counterexample :
    derive_headers [[("logo", Json.str "x")]] "brand" = ["logo_name"] ∧
    specHeadersClaimed [[("logo", Json.str "x")]] "brand" = ["logo"] ∧
    observedKey [[("logo", Json.str "x")]] "logo_name" = false ∧
    derive_headers [[("logo", Json.str "x")]] "brand" ≠
      specHeadersClaimed [[("logo", Json.str "x")]] "brand" := by
  refine ⟨by decide, by decide, by decide, by decide⟩

theorem observedKey_iff (entities : List Obj) (k : String) :
    k ∈ (entities.flatMap (fun e => e.map Prod.fst)).dedup ↔
      observedKey entities k = true := by
  rw [List.mem_dedup, List.mem_flatMap, observedKey, List.any_eq_true]
  constructor
  · rintro ⟨e, he, hk⟩
    rw [List.mem_map] at hk
    obtain ⟨p, hp, hpk⟩ := hk
    exact ⟨e, he, List.any_eq_true.mpr ⟨p, hp, by simpa using hpk⟩⟩
  · rintro ⟨e, he, hk⟩
    rw [List.any_eq_true] at hk
    obtain ⟨p, hp, hpk⟩ := hk
    exact ⟨e, he, List.mem_map.mpr ⟨p, hp, by simpa using hpk⟩⟩

theorem mem_adjustedKeySet (entities : List Obj) (k : String) :
    k ∈ adjustedKeySet entities ↔ adjustedKey entities k = true := by
  have hA1 : ∀ k', (k' ∈ ((entities.flatMap (fun e => e.map Prod.fst)).dedup).filter
      (fun x => ¬ x ∈ internalKeys)) ↔
      (observedKey entities k' = true ∧ k' ≠ "directory_name") := by
    intro k'
    rw [List.mem_filter, observedKey_iff]
    simp [internalKeys]
  have hE : ∀ k', (k' ∈ (((entities.flatMap (fun e => e.map Prod.fst)).dedup).filter
      (fun x => ¬ x ∈ internalKeys)).filter (fun x => x ≠ "logo")) ↔
      (observedKey entities k' = true ∧ k' ≠ "directory_name" ∧ k' ≠ "logo") := by
    intro k'
    rw [List.mem_filter, hA1]
    simp
    tauto
  simp only [adjustedKeySet]
  split_ifs with hl hln
  · rw [hE]
    rw [hA1] at hl
    rw [hE] at hln
    unfold adjustedKey
    by_cases h1 : k = "directory_name"
    · simp [h1]
    by_cases h2 : k = "logo"
    · simp [h1, h2]
    by_cases h3 : k = "logo_name"
    · subst h3
      simp only [if_neg h1, if_neg h2, if_pos rfl, hln.1, hl.1, Bool.or_self]
      simp
    · simp only [if_neg h1, if_neg h2, if_neg h3]
      constructor
      · exact fun h => h.1
      · exact fun h => ⟨h, h1, h2⟩
  · rw [hA1] at hl
    rw [List.mem_append, hE]
    unfold adjustedKey
    by_cases h1 : k = "directory_name"
    · simp [h1]
    by_cases h2 : k = "logo"
    · simp [h1, h2]
    by_cases h3 : k = "logo_name"
    · subst h3
      simp only [if_neg h1, if_neg h2, if_pos rfl, hl.1, List.mem_singleton]
      simp
    · simp only [if_neg h1, if_neg h2, if_neg h3, List.mem_singleton]
      constructor
      · rintro (h | h)
        · exact h.1
        · exact absurd h h3
      · exact fun h => Or.inl ⟨h, h1, h2⟩
  · rw [hA1] at hl ⊢
    unfold adjustedKey
    by_cases h1 : k = "directory_name"
    · simp [h1]
    by_cases h2 : k = "logo"
    · subst h2
      simp only [if_neg h1, if_pos rfl]
      constructor
      · intro h
        exact absurd ⟨h.1, by decide⟩ hl
      · intro h
        cases h
    by_cases h3 : k = "logo_name"
    · subst h3
      simp only [if_neg h1, if_neg h2, if_pos rfl]
      have hlf : observedKey entities "logo" = false := by
        by_contra hh
        exact hl ⟨by simpa using hh, by decide⟩
      rw [hlf]
      simp
    · simp only [if_neg h1, if_neg h2, if_neg h3]
      constructor
      · exact fun h => h.1
      · exact fun h => ⟨h, h1⟩

theorem adjustedKeySet_nodup (entities : List Obj) : (adjustedKeySet entities).Nodup := by
  simp only [adjustedKeySet]
  split_ifs with hl hln
  · exact ((List.nodup_dedup _).filter _).filter _
  · rw [List.nodup_append]
    refine ⟨((List.nodup_dedup _).filter _).filter _, List.nodup_singleton _, ?_⟩
    intro a ha hb
    rw [List.mem_singleton] at hb
    subst hb
    exact hln ha
  · exact (List.nodup_dedup _).filter _

/-- C9 (amended): after the internal `directory_name` key is removed and
an observed `logo` key is renamed to `logo_name`, the header row equals
the type's preferred ordering restricted to that adjusted key set,
followed by the remaining adjusted keys in strictly increasing
alphabetical order; `directory_name` never appears.  (As stated the claim
is false: the rename makes `logo_name` — observed in no row — appear,
and makes the observed `logo` disappear.) -/
theorem C9_headers_amended (entities : List Obj) (et : String) :
    ∃ tail,
      derive_headers entities et =
        (keyOrder et).filter (fun k => adjustedKey entities k) ++ tail ∧
      tail.Sorted (· < ·) ∧
      (∀ k, k ∈ tail ↔ (adjustedKey entities k = true ∧ ¬ k ∈ keyOrder et)) ∧
      ¬ "directory_name" ∈ derive_headers entities et := by
  have hpq : ∀ k, (decide (k ∈ adjustedKeySet entities)) = adjustedKey entities k := by
    intro k
    cases hb : adjustedKey entities k with
    | false => simp [mem_adjustedKeySet, hb]
    | true => simp [mem_adjustedKeySet, hb]
  have hord : (keyOrder et).filter (fun k => decide (k ∈ adjustedKeySet entities)) =
      (keyOrder et).filter (fun k => adjustedKey entities k) :=
    List.filter_congr (fun k _ => hpq k)
  have hperm : List.Perm (((adjustedKeySet entities).filter (fun k =>
      ¬ k ∈ (keyOrder et).filter (fun k => decide (k ∈ adjustedKeySet entities)))).insertionSort
        (· ≤ ·)) ((adjustedKeySet entities).filter (fun k =>
      ¬ k ∈ (keyOrder et).filter (fun k => decide (k ∈ adjustedKeySet entities)))) :=
    List.perm_insertionSort _ _
  have htail_nodup : (((adjustedKeySet entities).filter (fun k =>
      ¬ k ∈ (keyOrder et).filter (fun k => decide (k ∈ adjustedKeySet entities)))).insertionSort
        (· ≤ ·)).Nodup :=
    hperm.nodup_iff.mpr ((adjustedKeySet_nodup entities).filter _)
  have htail_mem : ∀ k, (k ∈ ((adjustedKeySet entities).filter (fun k =>
      ¬ k ∈ (keyOrder et).filter (fun k => decide (k ∈ adjustedKeySet entities)))).insertionSort
        (· ≤ ·)) ↔ (adjustedKey entities k = true ∧ ¬ k ∈ keyOrder et) := by
    intro k
    rw [hperm.mem_iff, List.mem_filter]
    simp only [List.mem_filter, mem_adjustedKeySet, decide_eq_true_eq, decide_not,
      Bool.not_eq_true', decide_eq_false_iff_not]
    constructor
    · rintro ⟨h1, h2⟩
      exact ⟨h1, fun hk => h2 ⟨hk, h1⟩⟩
    · rintro ⟨h1, h2⟩
      exact ⟨h1, fun hk => h2 hk.1⟩
  refine ⟨_, ?_, ?_, htail_mem, ?_⟩
  · simp only [derive_headers]
    rw [hord]
  · have hs := List.sorted_insertionSort (· ≤ ·)
      ((adjustedKeySet entities).filter (fun k =>
        ¬ k ∈ (keyOrder et).filter (fun k => decide (k ∈ adjustedKeySet entities))))
    have hne : (((adjustedKeySet entities).filter (fun k =>
        ¬ k ∈ (keyOrder et).filter (fun k => decide (k ∈ adjustedKeySet entities)))).insertionSort
        (· ≤ ·)).Pairwise (· ≠ ·) := htail_nodup
    exact (hs.and hne).imp (fun h => lt_of_le_of_ne h.1 h.2)
  · intro hmem
    have hdn : adjustedKey entities "directory_name" = false := by
      simp [adjustedKey]
    simp only [derive_headers] at hmem
    rw [List.mem_append] at hmem
    rcases hmem with hmem | hmem
    · have := (List.mem_filter.mp hmem).2
      rw [hpq] at this
      rw [hdn] at this
      cases this
    · have := (htail_mem "directory_name").mp hmem
      rw [hdn] at this
      cases this.1

/-- Witness for C9's amended theorem at a concrete input. -/
theorem C9_headers_amended_witness :
    ∃ tail,
      derive_headers [[("logo", Json.str "x")]] "brand" =
        (keyOrder "brand").filter (fun k => adjustedKey [[("logo", Json.str "x")]] k) ++ tail ∧
      tail.Sorted (· < ·) ∧
      (∀ k, k ∈ tail ↔ (adjustedKey [[("logo", Json.str "x")]] k = true ∧
        ¬ k ∈ keyOrder "brand")) ∧
      ¬ "directory_name" ∈ derive_headers [[("logo", Json.str "x")]] "brand" :=
  C9_headers_amended [[("logo", Json.str "x")]] "brand"

/-! ## Inversion lemmas for the crawler functions -/

theorem createPurchaseLink_elim (plEntry : Json) (size_id : String) (i j : Nat) (path : String)
    (s s' : CrawlState) (h : createPurchaseLink plEntry size_id i j path s = .ok s') :
    (∃ c w, (c = "Missing Field" ∨ c = "Invalid Reference") ∧ s' = addWarning s c w path) ∨
    (∃ pl store_uuid, plEntry = .obj pl ∧
      storeCacheGet? s.storeCache (Obj.getD pl "store_id" .null) = some store_uuid ∧
      s' = { s with purchase_links := s.purchase_links ++ [mkPurchaseLink pl
        (generate_purchase_link_id size_id store_uuid (Obj.getD pl "url" .null))
        size_id store_uuid (Obj.getD pl "url" .null)] }) := by
  unfold createPurchaseLink at h
  cases plEntry with
  | obj pl =>
      rw [show (asObj (Json.obj pl)) = Except.ok pl from rfl] at h
      rw [show ∀ (g : Obj → Except String CrawlState),
        (do let y ← Except.ok pl; g y) = g pl from fun g => rfl] at h
      dsimp only at h
      by_cases h1 : (¬ (Obj.getD pl "store_id" Json.null).truthy = true ∨
          ¬ (Obj.getD pl "url" Json.null).truthy = true)
      · rw [if_pos h1] at h
        exact Or.inl ⟨"Missing Field", _, Or.inl rfl, (Except.ok.inj h).symm⟩
      · rw [if_neg h1] at h
        by_cases h2 : ¬ hashable (Obj.getD pl "store_id" Json.null) = true
        · rw [if_pos h2] at h
          cases h
        · rw [if_neg h2] at h
          cases hc : storeCacheGet? s.storeCache (Obj.getD pl "store_id" Json.null) with
          | none =>
              rw [hc] at h
              exact Or.inl ⟨"Invalid Reference", _, Or.inr rfl, (Except.ok.inj h).symm⟩
          | some u =>
              rw [hc] at h
              exact Or.inr ⟨pl, u, rfl, hc, (Except.ok.inj h).symm⟩
  | null => cases h
  | bool b => cases h
  | int n => cases h
  | float f => cases h
  | str t => cases h
  | arr xs => cases h

theorem except_bind_ok {α β : Type} (a : α) (f : α → Except String β) :
    (do let y ← Except.ok a; f y) = f a := rfl

theorem except_bind_error {α β : Type} (msg : String) (f : α → Except String β) (b : β)
    (h : (do let y ← Except.error msg; f y) = Except.ok b) : False :=
  Except.noConfusion h

theorem createSize_elim (entry : Json) (variant_id : String) (index : Nat) (path : String)
    (s s' : CrawlState) (h : createSize entry variant_id index path s = .ok s') :
    (∃ w, s' = addWarning s "Missing Field" w path) ∨
    (∃ e wt dia pls,
      entry = .obj e ∧
      pyInt? (Obj.getD e "filament_weight" .null) = some wt ∧
      pyFloat? (if (Obj.getD e "diameter" (.float .onePoint75)).truthy then
          Obj.getD e "diameter" (.float .onePoint75) else .float .onePoint75) = some dia ∧
      pyIterate (Obj.getD e "purchase_links" (.arr [])) = .ok pls ∧
      runList (fun p => createPurchaseLink p.2 (generate_size_id variant_id entry index)
          index p.1 path) pls.enum
        { s with sizes := s.sizes ++ [mkSize e (generate_size_id variant_id entry index)
            variant_id wt dia
            (if (Obj.getD e "gtin" .null).truthy then Obj.getD e "gtin" .null
             else Obj.getD e "ean" .null)] } = .ok s') := by
  unfold createSize at h
  cases entry with
  | obj e =>
      rw [show (asObj (Json.obj e)) = Except.ok e from rfl, except_bind_ok] at h
      dsimp only at h
      split at h
      · exact Or.inl ⟨_, (Except.ok.inj h).symm⟩
      · unfold pyInt at h
        cases hpi : pyInt? (Obj.getD e "filament_weight" Json.null) with
        | none =>
            rw [hpi] at h
            exact absurd h (fun hh => Except.noConfusion hh)
        | some wt =>
            rw [hpi, except_bind_ok] at h
            unfold pyFloat at h
            cases hpf : pyFloat? (if (Obj.getD e "diameter" (.float .onePoint75)).truthy then
                Obj.getD e "diameter" (.float .onePoint75) else .float .onePoint75) with
            | none =>
                rw [hpf] at h
                exact absurd h (fun hh => Except.noConfusion hh)
            | some dia =>
                rw [hpf, except_bind_ok] at h
                cases hit : pyIterate (Obj.getD e "purchase_links" (.arr [])) with
                | error msg =>
                    rw [hit] at h
                    exact absurd h (fun hh => Except.noConfusion hh)
                | ok pls =>
                    rw [hit, except_bind_ok] at h
                    exact Or.inr ⟨e, wt, dia, pls, rfl, hpi, hpf, hit, h⟩
  | null => cases h
  | bool b => cases h
  | int n => cases h
  | float f => cases h
  | str t => cases h
  | arr xs => cases h

theorem processSizesFile_elim (content : Option Json) (variant_id path : String)
    (s s' : CrawlState) (h : processSizesFile content variant_id path s = .ok s') :
    (s' = addWarning s "JSON Parse" "Failed to parse" path) ∨
    (∃ sd, content = some sd ∧
      runList (fun p => createSize p.2 variant_id p.1 path)
        (match sd with | .arr xs => xs | v => [v]).enum s = .ok s') := by
  unfold processSizesFile at h
  cases content with
  | none => exact Or.inl (Except.ok.inj h).symm
  | some sd => exact Or.inr ⟨sd, rfl, h⟩

theorem processVariantDirectory_elim (parentPath name : String) (d : Dir)
    (filament_id : String) (s s' : CrawlState)
    (h : processVariantDirectory parentPath name d filament_id s = .ok s') :
    ((d.file? "variant.json" = none ∨ d.file? "variant.json" = some none) ∧
      ∃ c w p, s' = addWarning s c w p) ∨
    (∃ vd slug hvNew,
      d.file? "variant.json" = some (some (.obj vd)) ∧
      hexVariantsNew (Obj.getD vd "hex_variants" .null) = .ok hvNew ∧
      pySlugify (Obj.getD vd "id" (.str name)) = .ok slug ∧
      ((d.file? "sizes.json" = none ∧
        s' = { s with variants := s.variants ++ [variantEntity vd name filament_id slug hvNew] }) ∨
       (∃ c, d.file? "sizes.json" = some c ∧
        processSizesFile c (generate_variant_id filament_id (Obj.getD vd "id" (.str name)))
          (parentPath ++ "/" ++ name ++ "/sizes.json")
          { s with variants := s.variants ++ [variantEntity vd name filament_id slug hvNew] }
          = .ok s'))) := by
  unfold processVariantDirectory at h
  split at h
  next hn => exact Or.inl ⟨Or.inl hn, _, _, _, (Except.ok.inj h).symm⟩
  next hn => exact Or.inl ⟨Or.inr hn, _, _, _, (Except.ok.inj h).symm⟩
  next doc hf =>
    cases doc with
    | obj vd =>
        rw [show (asObj (Json.obj vd)) = Except.ok vd from rfl, except_bind_ok] at h
        dsimp only at h
        cases hhv : hexVariantsNew (Obj.getD vd "hex_variants" Json.null) with
        | error msg =>
            rw [hhv] at h
            exact absurd h (fun hh => Except.noConfusion hh)
        | ok hvNew =>
            rw [hhv, except_bind_ok] at h
            cases hsl : pySlugify (Obj.getD vd "id" (Json.str name)) with
            | error msg =>
                rw [hsl] at h
                exact absurd h (fun hh => Except.noConfusion hh)
            | ok slug =>
                rw [hsl, except_bind_ok] at h
                cases hsz : d.file? "sizes.json" with
                | none =>
                    rw [hsz] at h
                    exact Or.inr ⟨vd, slug, hvNew, hf, hhv, hsl,
                      Or.inl ⟨rfl, (Except.ok.inj h).symm⟩⟩
                | some c =>
                    rw [hsz] at h
                    exact Or.inr ⟨vd, slug, hvNew, hf, hhv, hsl,
                      Or.inr ⟨c, rfl, h⟩⟩
    | null => exact absurd h (fun hh => Except.noConfusion hh)
    | bool b => exact absurd h (fun hh => Except.noConfusion hh)
    | int n => exact absurd h (fun hh => Except.noConfusion hh)
    | float f => exact absurd h (fun hh => Except.noConfusion hh)
    | str t => exact absurd h (fun hh => Except.noConfusion hh)
    | arr xs => exact absurd h (fun hh => Except.noConfusion hh)

theorem processFilamentDirectory_elim (parentPath name : String) (d : Dir)
    (brand_id material_id material_name : String) (s s' : CrawlState)
    (h : processFilamentDirectory parentPath name d brand_id material_id material_name s
      = .ok s') :
    (∃ c w p, s' = addWarning s c w p) ∨
    (∃ fd slug,
      d.file? "filament.json" = some (some (.obj fd)) ∧
      pySlugify (Obj.getD fd "name" (.str name)) = .ok slug ∧
      runList (fun p => processVariantDirectory (parentPath ++ "/" ++ name) p.1 p.2
          (generate_filament_id brand_id material_id (Obj.getD fd "name" (.str name))))
        d.visible
        { s with filaments := s.filaments ++ [mkFilament fd
            (generate_filament_id brand_id material_id (Obj.getD fd "name" (.str name)))
            brand_id material_id (Obj.getD fd "name" (.str name)) slug material_name] }
        = .ok s') := by
  unfold processFilamentDirectory at h
  split at h
  · exact Or.inl ⟨_, _, _, (Except.ok.inj h).symm⟩
  · exact Or.inl ⟨_, _, _, (Except.ok.inj h).symm⟩
  next doc hf =>
    cases doc with
    | obj fd =>
        rw [show (asObj (Json.obj fd)) = Except.ok fd from rfl, except_bind_ok] at h
        dsimp only at h
        cases hsl : pySlugify (Obj.getD fd "name" (Json.str name)) with
        | error msg =>
            rw [hsl] at h
            exact absurd h (fun hh => Except.noConfusion hh)
        | ok slug =>
            rw [hsl, except_bind_ok] at h
            exact Or.inr ⟨fd, slug, hf, hsl, h⟩
    | null => exact absurd h (fun hh => Except.noConfusion hh)
    | bool b => exact absurd h (fun hh => Except.noConfusion hh)
    | int n => exact absurd h (fun hh => Except.noConfusion hh)
    | float f => exact absurd h (fun hh => Except.noConfusion hh)
    | str t => exact absurd h (fun hh => Except.noConfusion hh)
    | arr xs => exact absurd h (fun hh => Except.noConfusion hh)

theorem materialDocResolve_state (parentPath name : String) (d : Dir) (s : CrawlState) :
    (materialDocResolve parentPath name d s).1 = s ∨
    ∃ c w p, (materialDocResolve parentPath name d s).1 = addWarning s c w p := by
  unfold materialDocResolve
  split
  · exact Or.inl rfl
  · exact Or.inr ⟨_, _, _, rfl⟩
  · exact Or.inl rfl

theorem materialDocResolve_doc (parentPath name : String) (d : Dir) (s : CrawlState) :
    d.file? "material.json" = some (some (materialDocResolve parentPath name d s).2) ∨
    (materialDocResolve parentPath name d s).2 = Json.obj [] := by
  unfold materialDocResolve
  split
  · exact Or.inr rfl
  · exact Or.inr rfl
  next doc hf => exact Or.inl hf

theorem processMaterialDirectory_elim (parentPath name : String) (d : Dir)
    (brand_id : String) (s s' : CrawlState)
    (h : processMaterialDirectory parentPath name d brand_id s = .ok s') :
    ∃ s1 s2,
      (s1 = s ∨ ∃ c w p, s1 = addWarning s c w p) ∧
      ((¬ (strCacheGet? s1.materialCache (brand_id ++ ":" ++ name)).isNone = true ∧ s2 = s1) ∨
       (∃ md, (strCacheGet? s1.materialCache (brand_id ++ ":" ++ name)).isNone = true ∧
          (d.file? "material.json" = some (some (Json.obj md)) ∨ md = []) ∧
          s2 = { s1 with
            materials := s1.materials ++
              [mkMaterial md (generate_material_id brand_id name) brand_id name],
            materialCache := strCacheSet s1.materialCache (brand_id ++ ":" ++ name)
              (generate_material_id brand_id name) })) ∧
      runList (fun p => processFilamentDirectory (parentPath ++ "/" ++ name) p.1 p.2
          brand_id (generate_material_id brand_id name) name) d.visible s2 = .ok s' := by
  unfold processMaterialDirectory at h
  dsimp only at h
  rcases hdoc : (materialDocResolve parentPath name d s) with ⟨s1, mdata⟩
  rw [hdoc] at h
  dsimp only at h
  have hs1 : s1 = s ∨ ∃ c w p, s1 = addWarning s c w p := by
    have := materialDocResolve_state parentPath name d s
    rw [hdoc] at this
    exact this
  have hmd : d.file? "material.json" = some (some mdata) ∨ mdata = Json.obj [] := by
    have := materialDocResolve_doc parentPath name d s
    rw [hdoc] at this
    exact this
  by_cases hc : (strCacheGet? s1.materialCache (brand_id ++ ":" ++ name)).isNone = true
  · rw [if_pos hc] at h
    cases mdata with
    | obj md =>
        rw [show (asObj (Json.obj md)) = Except.ok md from rfl] at h
        refine ⟨s1, _, hs1, Or.inr ⟨md, hc, ?_, rfl⟩, h⟩
        rcases hmd with hmd | hmd
        · exact Or.inl hmd
        · exact Or.inr (by cases hmd; rfl)
    | null => exact absurd h (fun hh => Except.noConfusion hh)
    | bool b => exact absurd h (fun hh => Except.noConfusion hh)
    | int n => exact absurd h (fun hh => Except.noConfusion hh)
    | float f => exact absurd h (fun hh => Except.noConfusion hh)
    | str t => exact absurd h (fun hh => Except.noConfusion hh)
    | arr xs => exact absurd h (fun hh => Except.noConfusion hh)
  · rw [if_neg hc] at h
    exact ⟨s1, s1, hs1, Or.inl ⟨hc, rfl⟩, h⟩

theorem processBrandDirectory_elim (dataPath name : String) (d : Dir) (s s' : CrawlState)
    (h : processBrandDirectory dataPath name d s = .ok s') :
    (∃ c w p, s' = addWarning s c w p) ∨
    (∃ bd, d.file? "brand.json" = some (some (.obj bd)) ∧
      runList (fun p => processMaterialDirectory (dataPath ++ "/" ++ name) p.1 p.2
          (generate_brand_id name)) d.visible
        { s with brands := s.brands ++ [mkBrand bd (generate_brand_id name) name],
                 brandCache := strCacheSet s.brandCache name (generate_brand_id name) }
        = .ok s') := by
  unfold processBrandDirectory at h
  split at h
  · exact Or.inl ⟨_, _, _, (Except.ok.inj h).symm⟩
  · exact Or.inl ⟨_, _, _, (Except.ok.inj h).symm⟩
  next doc hf =>
    cases doc with
    | obj bd =>
        rw [show (asObj (Json.obj bd)) = Except.ok bd from rfl, except_bind_ok] at h
        dsimp only at h
        exact Or.inr ⟨bd, hf, h⟩
    | null => exact absurd h (fun hh => Except.noConfusion hh)
    | bool b => exact absurd h (fun hh => Except.noConfusion hh)
    | int n => exact absurd h (fun hh => Except.noConfusion hh)
    | float f => exact absurd h (fun hh => Except.noConfusion hh)
    | str t => exact absurd h (fun hh => Except.noConfusion hh)
    | arr xs => exact absurd h (fun hh => Except.noConfusion hh)

theorem processStoreDirectory_elim (storesPath name : String) (d : Dir) (s s' : CrawlState)
    (h : processStoreDirectory storesPath name d s = .ok s') :
    (s' = s) ∨ (∃ c w p, s' = addWarning s c w p) ∨
    (∃ data slug, d.file? "store.json" = some (some (.obj data)) ∧
      (Obj.getD data "id" .null).truthy = true ∧
      hashable (Obj.getD data "id" .null) = true ∧
      pySlugify (Obj.getD data "name" (.str name)) = .ok slug ∧
      s' = { s with
        stores := s.stores ++ [mkStore data (generate_store_id (Obj.getD data "id" .null))
          (Obj.getD data "name" (.str name)) slug name],
        storeCache := storeCacheSet s.storeCache (Obj.getD data "id" .null)
          (generate_store_id (Obj.getD data "id" .null)) }) := by
  unfold processStoreDirectory at h
  split at h
  · exact Or.inl (Except.ok.inj h).symm
  · exact Or.inr (Or.inl ⟨_, _, _, (Except.ok.inj h).symm⟩)
  next doc hf =>
    cases doc with
    | obj data =>
        rw [show (asObj (Json.obj data)) = Except.ok data from rfl, except_bind_ok] at h
        dsimp only at h
        by_cases h1 : ¬ (Obj.getD data "id" Json.null).truthy = true
        · rw [if_pos h1] at h
          exact Or.inr (Or.inl ⟨_, _, _, (Except.ok.inj h).symm⟩)
        · rw [if_neg h1] at h
          cases hsl : pySlugify (Obj.getD data "name" (Json.str name)) with
          | error msg =>
              rw [hsl] at h
              exact absurd h (fun hh => Except.noConfusion hh)
          | ok slug =>
              rw [hsl, except_bind_ok] at h
              by_cases h2 : ¬ hashable (Obj.getD data "id" Json.null) = true
              · rw [if_pos h2] at h
                cases h
              · rw [if_neg h2] at h
                push_neg at h1 h2
                exact Or.inr (Or.inr ⟨data, slug, hf,
                  by simpa using h1, by simpa using h2, hsl, (Except.ok.inj h).symm⟩)
    | null => exact absurd h (fun hh => Except.noConfusion hh)
    | bool b => exact absurd h (fun hh => Except.noConfusion hh)
    | int n => exact absurd h (fun hh => Except.noConfusion hh)
    | float f => exact absurd h (fun hh => Except.noConfusion hh)
    | str t => exact absurd h (fun hh => Except.noConfusion hh)
    | arr xs => exact absurd h (fun hh => Except.noConfusion hh)

theorem crawlStoresDirectory_elim (storesDir? : Option Dir) (s s' : CrawlState)
    (h : crawlStoresDirectory storesDir? s = .ok s') :
    (∃ c w p, s' = addWarning s c w p) ∨
    (∃ d, storesDir? = some d ∧
      runList (fun p => processStoreDirectory "stores" p.1 p.2) d.visible s = .ok s') := by
  unfold crawlStoresDirectory at h
  cases storesDir? with
  | none => exact Or.inl ⟨_, _, _, (Except.ok.inj h).symm⟩
  | some d => exact Or.inr ⟨d, rfl, h⟩

theorem crawlDataDirectory_elim (dataDir? : Option Dir) (s s' : CrawlState)
    (h : crawlDataDirectory dataDir? s = .ok s') :
    (∃ c w p, s' = addWarning s c w p) ∨
    (∃ d, dataDir? = some d ∧
      runList (fun p => processBrandDirectory "data" p.1 p.2) d.visible s = .ok s') := by
  unfold crawlDataDirectory at h
  cases dataDir? with
  | none => exact Or.inl ⟨_, _, _, (Except.ok.inj h).symm⟩
  | some d => exact Or.inr ⟨d, rfl, h⟩

theorem crawl_data_elim (dataDir? storesDir? : Option Dir) (s' : CrawlState)
    (h : crawl_data dataDir? storesDir? = .ok s') :
    ∃ s1, crawlStoresDirectory storesDir? initialState = .ok s1 ∧
      crawlDataDirectory dataDir? s1 = .ok s' := by
  unfold crawl_data at h
  cases hs : crawlStoresDirectory storesDir? initialState with
  | error msg =>
      rw [hs] at h
      exact absurd h (fun hh => Except.noConfusion hh)
  | ok s1 =>
      rw [hs, except_bind_ok] at h
      exact ⟨s1, rfl, h⟩

/-! ## Referential integrity: invariants along the crawl -/

theorem Grows.rfl (s : CrawlState) : Grows s s :=
  ⟨⟨[], by simp⟩, ⟨[], by simp⟩, ⟨[], by simp⟩, ⟨[], by simp⟩,
   ⟨[], by simp⟩, ⟨[], by simp⟩, ⟨[], by simp⟩⟩

theorem growsList_trans {a b c : List Obj} (h1 : ∃ l, b = a ++ l) (h2 : ∃ l, c = b ++ l) :
    ∃ l, c = a ++ l := by
  obtain ⟨l1, rfl⟩ := h1
  obtain ⟨l2, rfl⟩ := h2
  exact ⟨l1 ++ l2, by simp⟩

theorem Grows.trans {a b c : CrawlState} (h1 : Grows a b) (h2 : Grows b c) : Grows a c :=
  ⟨growsList_trans h1.brands h2.brands, growsList_trans h1.materials h2.materials,
   growsList_trans h1.filaments h2.filaments, growsList_trans h1.variants h2.variants,
   growsList_trans h1.sizes h2.sizes, growsList_trans h1.stores h2.stores,
   growsList_trans h1.purchase_links h2.purchase_links⟩

theorem mem_of_growsList {a b : List Obj} (h : ∃ l, b = a ++ l) {o : Obj} (ho : o ∈ a) :
    o ∈ b := by
  obtain ⟨l, rfl⟩ := h
  exact List.mem_append_left _ ho

theorem resolves_mono_tgt {src tgt tgt' : List Obj} {field : String}
    (h : resolves src field tgt) (hg : ∃ l, tgt' = tgt ++ l) :
    resolves src field tgt' := by
  intro o ho
  obtain ⟨v, hv, t, ht, hid⟩ := h o ho
  exact ⟨v, hv, t, mem_of_growsList hg ht, hid⟩

theorem resolves_append_src {src new tgt : List Obj} {field : String}
    (h : resolves src field tgt)
    (hnew : ∀ o ∈ new, ∃ v, Obj.get? o field = some (.str v) ∧ ∃ t ∈ tgt, hasId t v) :
    resolves (src ++ new) field tgt := by
  intro o ho
  rcases List.mem_append.mp ho with ho | ho
  · exact h o ho
  · exact hnew o ho

theorem StepP_rfl (ctx : CrawlState → Prop) (s : CrawlState) : StepP ctx s s :=
  ⟨Grows.rfl s, id⟩

theorem StepP_trans {ctx : CrawlState → Prop} {a b c : CrawlState}
    (h1 : StepP ctx a b) (h2 : StepP ctx b c) : StepP ctx a c :=
  ⟨h1.1.trans h2.1, fun h => h2.2 (h1.2 h)⟩

theorem inv_addWarning (s : CrawlState) (c w p : String) (h : CrawlInv s) :
    CrawlInv (addWarning s c w p) :=
  ⟨⟨h.integ.pl_store, h.integ.pl_size, h.integ.size_variant, h.integ.variant_filament,
    h.integ.filament_material, h.integ.filament_brand, h.integ.material_brand⟩,
   h.stCache, h.matCache⟩

theorem grows_addWarning (s : CrawlState) (c w p : String) : Grows s (addWarning s c w p) :=
  ⟨⟨[], by simp [addWarning]⟩, ⟨[], by simp [addWarning]⟩, ⟨[], by simp [addWarning]⟩,
   ⟨[], by simp [addWarning]⟩, ⟨[], by simp [addWarning]⟩, ⟨[], by simp [addWarning]⟩,
   ⟨[], by simp [addWarning]⟩⟩

/-! ## Field lemmas for the constructed entities -/

theorem mkStore_id (data : Obj) (sid : String) (nv : Json) (slug dn : String) :
    Obj.get? (mkStore data sid nv slug dn) "id" = some (.str sid) := by
  unfold mkStore
  rw [Obj.get?_set_ne _ _ _ _ (by decide), Obj.get?_set_ne _ _ _ _ (by decide),
      Obj.get?_set_ne _ _ _ _ (by decide), Obj.get?_set_ne _ _ _ _ (by decide),
      Obj.get?_set_ne _ _ _ _ (by decide), Obj.get?_set_ne _ _ _ _ (by decide),
      Obj.get?_set_ne _ _ _ _ (by decide), Obj.get?_set_self]

theorem mkBrand_id (bd : Obj) (bid bn : String) :
    Obj.get? (mkBrand bd bid bn) "id" = some (.str bid) := by
  unfold mkBrand
  rw [Obj.get?_set_ne _ _ _ _ (by decide), Obj.get?_set_ne _ _ _ _ (by decide),
      Obj.get?_set_ne _ _ _ _ (by decide), Obj.get?_set_ne _ _ _ _ (by decide),
      Obj.get?_set_ne _ _ _ _ (by decide), Obj.get?_set_ne _ _ _ _ (by decide),
      Obj.get?_set_self]

theorem mkMaterial_id (md : Obj) (mid bid mn : String) :
    Obj.get? (mkMaterial md mid bid mn) "id" = some (.str mid) := by
  unfold mkMaterial
  rw [Obj.get?_set_ne _ _ _ _ (by decide), Obj.get?_set_ne _ _ _ _ (by decide),
      Obj.get?_set_ne _ _ _ _ (by decide), Obj.get?_set_ne _ _ _ _ (by decide),
      Obj.get?_set_self]

theorem mkMaterial_brand_id (md : Obj) (mid bid mn : String) :
    Obj.get? (mkMaterial md mid bid mn) "brand_id" = some (.str bid) := by
  unfold mkMaterial
  rw [Obj.get?_set_ne _ _ _ _ (by decide), Obj.get?_set_ne _ _ _ _ (by decide),
      Obj.get?_set_ne _ _ _ _ (by decide), Obj.get?_set_self]

theorem mkFilament_id (fd : Obj) (fid bid mid : String) (nv : Json) (slug mn : String) :
    Obj.get? (mkFilament fd fid bid mid nv slug mn) "id" = some (.str fid) := by
  unfold mkFilament
  rw [Obj.get?_set_ne _ _ _ _ (by decide), Obj.get?_set_ne _ _ _ _ (by decide),
      Obj.get?_set_ne _ _ _ _ (by decide), Obj.get?_set_ne _ _ _ _ (by decide),
      Obj.get?_set_ne _ _ _ _ (by decide), Obj.get?_set_ne _ _ _ _ (by decide),
      Obj.get?_set_ne _ _ _ _ (by decide), Obj.get?_set_ne _ _ _ _ (by decide),
      Obj.get?_set_self]

theorem mkFilament_brand_id (fd : Obj) (fid bid mid : String) (nv : Json) (slug mn : String) :
    Obj.get? (mkFilament fd fid bid mid nv slug mn) "brand_id" = some (.str bid) := by
  unfold mkFilament
  rw [Obj.get?_set_ne _ _ _ _ (by decide), Obj.get?_set_ne _ _ _ _ (by decide),
      Obj.get?_set_ne _ _ _ _ (by decide), Obj.get?_set_ne _ _ _ _ (by decide),
      Obj.get?_set_ne _ _ _ _ (by decide), Obj.get?_set_ne _ _ _ _ (by decide),
      Obj.get?_set_ne _ _ _ _ (by decide), Obj.get?_set_self]

theorem mkFilament_material_id (fd : Obj) (fid bid mid : String) (nv : Json)
    (slug mn : String) :
    Obj.get? (mkFilament fd fid bid mid nv slug mn) "material_id" = some (.str mid) := by
  unfold mkFilament
  rw [Obj.get?_set_ne _ _ _ _ (by decide), Obj.get?_set_ne _ _ _ _ (by decide),
      Obj.get?_set_ne _ _ _ _ (by decide), Obj.get?_set_ne _ _ _ _ (by decide),
      Obj.get?_set_ne _ _ _ _ (by decide), Obj.get?_set_ne _ _ _ _ (by decide),
      Obj.get?_set_self]

theorem mkVariant_id (vd : Obj) (vid fid slug : String) (nv ch : Json) :
    Obj.get? (mkVariant vd vid fid slug nv ch) "id" = some (.str vid) := by
  unfold mkVariant
  rw [Obj.get?_set_ne _ _ _ _ (by decide), Obj.get?_set_ne _ _ _ _ (by decide),
      Obj.get?_set_ne _ _ _ _ (by decide), Obj.get?_set_ne _ _ _ _ (by decide),
      Obj.get?_set_ne _ _ _ _ (by decide), Obj.get?_set_self]

theorem mkVariant_filament_id (vd : Obj) (vid fid slug : String) (nv ch : Json) :
    Obj.get? (mkVariant vd vid fid slug nv ch) "filament_id" = some (.str fid) := by
  unfold mkVariant
  rw [Obj.get?_set_ne _ _ _ _ (by decide), Obj.get?_set_ne _ _ _ _ (by decide),
      Obj.get?_set_ne _ _ _ _ (by decide), Obj.get?_set_ne _ _ _ _ (by decide),
      Obj.get?_set_self]

theorem variantEntity_id (vd : Obj) (name fid slug : String) (hvNew : Option (List Json)) :
    Obj.get? (variantEntity vd name fid slug hvNew) "id" =
      some (.str (generate_variant_id fid (Obj.getD vd "id" (.str name)))) := by
  unfold variantEntity
  cases hvNew with
  | none => exact mkVariant_id _ _ _ _ _ _
  | some l =>
      dsimp only
      by_cases hl : l.isEmpty
      · rw [if_pos hl]
        exact mkVariant_id _ _ _ _ _ _
      · rw [if_neg hl, Obj.get?_set_ne _ _ _ _ (by decide)]
        exact mkVariant_id _ _ _ _ _ _

theorem variantEntity_filament_id (vd : Obj) (name fid slug : String)
    (hvNew : Option (List Json)) :
    Obj.get? (variantEntity vd name fid slug hvNew) "filament_id" = some (.str fid) := by
  unfold variantEntity
  cases hvNew with
  | none => exact mkVariant_filament_id _ _ _ _ _ _
  | some l =>
      dsimp only
      by_cases hl : l.isEmpty
      · rw [if_pos hl]
        exact mkVariant_filament_id _ _ _ _ _ _
      · rw [if_neg hl, Obj.get?_set_ne _ _ _ _ (by decide)]
        exact mkVariant_filament_id _ _ _ _ _ _

theorem mkSize_id (e : Obj) (sid vid : String) (w : Int) (dia : PyFloat) (g : Json) :
    Obj.get? (mkSize e sid vid w dia g) "id" = some (.str sid) := by
  unfold mkSize
  rw [Obj.get?_remove_ne _ _ _ (by decide), Obj.get?_remove_ne _ _ _ (by decide)]
  by_cases hg : g.truthy
  · rw [if_pos hg, Obj.get?_set_ne _ _ _ _ (by decide),
        Obj.get?_set_ne _ _ _ _ (by decide), Obj.get?_set_ne _ _ _ _ (by decide),
        Obj.get?_set_ne _ _ _ _ (by decide), Obj.get?_set_ne _ _ _ _ (by decide),
        Obj.get?_set_self]
  · rw [if_neg hg, Obj.get?_set_ne _ _ _ _ (by decide),
        Obj.get?_set_ne _ _ _ _ (by decide), Obj.get?_set_ne _ _ _ _ (by decide),
        Obj.get?_set_ne _ _ _ _ (by decide), Obj.get?_set_self]

theorem mkSize_variant_id (e : Obj) (sid vid : String) (w : Int) (dia : PyFloat) (g : Json) :
    Obj.get? (mkSize e sid vid w dia g) "variant_id" = some (.str vid) := by
  unfold mkSize
  rw [Obj.get?_remove_ne _ _ _ (by decide), Obj.get?_remove_ne _ _ _ (by decide)]
  by_cases hg : g.truthy
  · rw [if_pos hg, Obj.get?_set_ne _ _ _ _ (by decide),
        Obj.get?_set_ne _ _ _ _ (by decide), Obj.get?_set_ne _ _ _ _ (by decide),
        Obj.get?_set_ne _ _ _ _ (by decide), Obj.get?_set_self]
  · rw [if_neg hg, Obj.get?_set_ne _ _ _ _ (by decide),
        Obj.get?_set_ne _ _ _ _ (by decide), Obj.get?_set_ne _ _ _ _ (by decide),
        Obj.get?_set_self]

theorem get?_if_set_ne (o : Obj) (k k' : String) (v : Json) (b : Bool) (h : k' ≠ k) :
    Obj.get? (if b = true then o.set k v else o) k' = o.get? k' := by
  cases b
  · rfl
  · exact Obj.get?_set_ne o k k' v h

theorem mkPurchaseLink_size_id (pl : Obj) (pid sid suid : String) (url : Json) :
    Obj.get? (mkPurchaseLink pl pid sid suid url) "size_id" = some (.str sid) := by
  unfold mkPurchaseLink
  dsimp only
  rw [get?_if_set_ne _ _ _ _ _ (by decide), get?_if_set_ne _ _ _ _ _ (by decide),
      Obj.get?_set_ne _ _ _ _ (by decide), Obj.get?_set_ne _ _ _ _ (by decide),
      Obj.get?_set_ne _ _ _ _ (by decide), Obj.get?_set_self]

theorem mkPurchaseLink_store_id (pl : Obj) (pid sid suid : String) (url : Json) :
    Obj.get? (mkPurchaseLink pl pid sid suid url) "store_id" = some (.str suid) := by
  unfold mkPurchaseLink
  dsimp only
  rw [get?_if_set_ne _ _ _ _ _ (by decide), get?_if_set_ne _ _ _ _ _ (by decide),
      Obj.get?_set_ne _ _ _ _ (by decide), Obj.get?_set_ne _ _ _ _ (by decide),
      Obj.get?_set_self]

/-! ## Cache lookup/update lemmas -/

theorem storeCacheGet?_mem {c : List (Json × String)} {k : Json} {v : String}
    (h : storeCacheGet? c k = some v) : ∃ p ∈ c, p.2 = v := by
  unfold storeCacheGet? at h
  cases hf : c.find? (fun p => Json.beq p.1 k) with
  | none => rw [hf] at h; cases h
  | some p =>
      rw [hf] at h
      exact ⟨p, List.mem_of_find?_eq_some hf, by simpa using h⟩

theorem strCacheGet?_hit_mem {c : List (String × String)} {k : String}
    (h : ¬ (strCacheGet? c k).isNone = true) : ∃ p ∈ c, p.1 = k := by
  unfold strCacheGet? at h
  cases hf : c.find? (fun p => p.1 = k) with
  | none => rw [hf] at h; simp at h
  | some p =>
      refine ⟨p, List.mem_of_find?_eq_some hf, ?_⟩
      have := List.find?_some hf
      simpa using this

theorem strCacheSet_mem {c : List (String × String)} {k v : String} :
    ∀ p ∈ strCacheSet c k v, p = (k, v) ∨ p ∈ c := by
  intro p hp
  unfold strCacheSet at hp
  by_cases h : c.any (fun q => q.1 = k)
  · rw [if_pos h] at hp
    rw [List.mem_map] at hp
    obtain ⟨q, hq, hqe⟩ := hp
    by_cases hq1 : q.1 = k
    · rw [if_pos hq1] at hqe
      exact Or.inl hqe.symm
    · rw [if_neg hq1] at hqe
      exact Or.inr (hqe ▸ hq)
  · rw [if_neg h, List.mem_append] at hp
    rcases hp with hp | hp
    · exact Or.inr hp
    · rw [List.mem_singleton] at hp
      exact Or.inl hp

theorem storeCacheSet_mem {c : List (Json × String)} {k : Json} {v : String} :
    ∀ p ∈ storeCacheSet c k v, p.2 = v ∨ p ∈ c := by
  intro p hp
  unfold storeCacheSet at hp
  by_cases h : c.any (fun q => Json.beq q.1 k)
  · rw [if_pos h] at hp
    rw [List.mem_map] at hp
    obtain ⟨q, hq, hqe⟩ := hp
    by_cases hq1 : Json.beq q.1 k
    · rw [if_pos hq1] at hqe
      exact Or.inl (by rw [← hqe])
    · rw [if_neg hq1] at hqe
      exact Or.inr (hqe ▸ hq)
  · rw [if_neg h, List.mem_append] at hp
    rcases hp with hp | hp
    · exact Or.inr hp
    · rw [List.mem_singleton] at hp
      exact Or.inl (by rw [hp])

/-! ## Loop contexts -/

theorem sizeCtx_mono {v : String} {a b : CrawlState} (h : Grows a b) :
    sizeCtx v a → sizeCtx v b :=
  fun ⟨x, hx, hid⟩ => ⟨x, mem_of_growsList h.sizes hx, hid⟩

theorem variantCtx_mono {v : String} {a b : CrawlState} (h : Grows a b) :
    variantCtx v a → variantCtx v b :=
  fun ⟨x, hx, hid⟩ => ⟨x, mem_of_growsList h.variants hx, hid⟩

theorem filamentCtx_mono {v : String} {a b : CrawlState} (h : Grows a b) :
    filamentCtx v a → filamentCtx v b :=
  fun ⟨x, hx, hid⟩ => ⟨x, mem_of_growsList h.filaments hx, hid⟩

theorem materialCtx_mono {v : String} {a b : CrawlState} (h : Grows a b) :
    materialCtx v a → materialCtx v b :=
  fun ⟨x, hx, hid⟩ => ⟨x, mem_of_growsList h.materials hx, hid⟩

theorem brandCtx_mono {v : String} {a b : CrawlState} (h : Grows a b) :
    brandCtx v a → brandCtx v b :=
  fun ⟨⟨x, hx, hid⟩, hcf⟩ => ⟨⟨x, mem_of_growsList h.brands hx, hid⟩, hcf⟩

/-! ## Invariant preservation, bottom-up -/

theorem createPurchaseLink_step (plEntry : Json) (size_id : String) (i j : Nat)
    (path : String) (s s' : CrawlState)
    (h : createPurchaseLink plEntry size_id i j path s = .ok s') :
    StepP (sizeCtx size_id) s s' := by
  rcases createPurchaseLink_elim _ _ _ _ _ _ _ h with ⟨c, w, _, hs'⟩ | ⟨pl, suid, _, hcache, hs'⟩
  · subst hs'
    exact ⟨grows_addWarning s c w path, fun ⟨hi, hc⟩ => ⟨inv_addWarning _ _ _ _ hi, hc⟩⟩
  · subst hs'
    refine ⟨⟨⟨[], by simp⟩, ⟨[], by simp⟩, ⟨[], by simp⟩, ⟨[], by simp⟩,
      ⟨[], by simp⟩, ⟨[], by simp⟩, ⟨_, rfl⟩⟩, ?_⟩
    rintro ⟨hi, hctx⟩
    refine ⟨⟨⟨?_, ?_, hi.integ.size_variant, hi.integ.variant_filament,
      hi.integ.filament_material, hi.integ.filament_brand, hi.integ.material_brand⟩,
      hi.stCache, hi.matCache⟩, hctx⟩
    · refine resolves_append_src hi.integ.pl_store ?_
      intro o ho
      rw [List.mem_singleton] at ho
      subst ho
      refine ⟨suid, mkPurchaseLink_store_id _ _ _ _ _, ?_⟩
      obtain ⟨p, hp, hpv⟩ := storeCacheGet?_mem hcache
      obtain ⟨t, ht, hid⟩ := hi.stCache p hp
      exact ⟨t, ht, hpv ▸ hid⟩
    · refine resolves_append_src hi.integ.pl_size ?_
      intro o ho
      rw [List.mem_singleton] at ho
      subst ho
      obtain ⟨x, hx, hid⟩ := hctx
      exact ⟨size_id, mkPurchaseLink_size_id _ _ _ _ _, x, hx, hid⟩

theorem createSize_step (entry : Json) (variant_id : String) (index : Nat) (path : String)
    (s s' : CrawlState) (h : createSize entry variant_id index path s = .ok s') :
    StepP (variantCtx variant_id) s s' := by
  rcases createSize_elim _ _ _ _ _ _ h with ⟨w, hs'⟩ | ⟨e, wt, dia, pls, _, _, _, _, hrun⟩
  · subst hs'
    exact ⟨grows_addWarning s "Missing Field" w path,
      fun ⟨hi, hc⟩ => ⟨inv_addWarning _ _ _ _ hi, hc⟩⟩
  · set sid := generate_size_id variant_id entry index with hsid
    set gt := (if (Obj.getD e "gtin" Json.null).truthy then Obj.getD e "gtin" Json.null
      else Obj.getD e "ean" Json.null) with hgt
    set mid := { s with sizes := s.sizes ++ [mkSize e sid variant_id wt dia gt] } with hmid
    have hgrow1 : Grows s mid := by
      refine ⟨⟨[], by simp [hmid]⟩, ⟨[], by simp [hmid]⟩, ⟨[], by simp [hmid]⟩,
        ⟨[], by simp [hmid]⟩, ⟨_, rfl⟩, ⟨[], by simp [hmid]⟩, ⟨[], by simp [hmid]⟩⟩
    have himp1 : (CrawlInv s ∧ variantCtx variant_id s) →
        (CrawlInv mid ∧ variantCtx variant_id mid ∧ sizeCtx sid mid) := by
      rintro ⟨hi, hctx⟩
      refine ⟨⟨⟨hi.integ.pl_store,
        resolves_mono_tgt hi.integ.pl_size ⟨_, rfl⟩, ?_,
        hi.integ.variant_filament, hi.integ.filament_material,
        hi.integ.filament_brand, hi.integ.material_brand⟩,
        hi.stCache, hi.matCache⟩, ?_, ?_⟩
      · refine resolves_append_src hi.integ.size_variant ?_
        intro o ho
        rw [List.mem_singleton] at ho
        subst ho
        obtain ⟨x, hx, hid⟩ := hctx
        exact ⟨variant_id, mkSize_variant_id _ _ _ _ _ _, x, hx, hid⟩
      · obtain ⟨x, hx, hid⟩ := hctx
        exact ⟨x, hx, hid⟩
      · exact ⟨mkSize e sid variant_id wt dia gt, List.mem_append_right _ (by simp),
          mkSize_id _ _ _ _ _ _⟩
    have hstep2 : StepP (fun t => variantCtx variant_id t ∧ sizeCtx sid t) mid s' := by
      refine runList_rel (StepP_rfl _) (fun {a b c} => StepP_trans) pls.enum ?_ mid s' hrun
      intro x _ t t' hx
      have hst := createPurchaseLink_step x.2 sid index x.1 path t t' hx
      exact ⟨hst.1, fun ⟨hi, hc1, hc2⟩ =>
        let r := hst.2 ⟨hi, hc2⟩
        ⟨r.1, variantCtx_mono hst.1 hc1, r.2⟩⟩
    refine ⟨hgrow1.trans hstep2.1, ?_⟩
    rintro ⟨hi, hc⟩
    obtain ⟨hi1, hc1, hc2⟩ := himp1 ⟨hi, hc⟩
    obtain ⟨hi2, hc'⟩ := hstep2.2 ⟨hi1, hc1, hc2⟩
    exact ⟨hi2, hc'.1⟩

theorem processSizesFile_step (content : Option Json) (variant_id path : String)
    (s s' : CrawlState) (h : processSizesFile content variant_id path s = .ok s') :
    StepP (variantCtx variant_id) s s' := by
  rcases processSizesFile_elim _ _ _ _ _ h with hs' | ⟨sd, _, hrun⟩
  · subst hs'
    exact ⟨grows_addWarning s _ _ path, fun ⟨hi, hc⟩ => ⟨inv_addWarning _ _ _ _ hi, hc⟩⟩
  · refine runList_rel (StepP_rfl _) (fun {a b c} => StepP_trans) _ ?_ s s' hrun
    intro x _ t t' hx
    exact createSize_step x.2 variant_id x.1 path t t' hx

theorem processVariantDirectory_step (parentPath name : String) (d : Dir)
    (filament_id : String) (s s' : CrawlState)
    (h : processVariantDirectory parentPath name d filament_id s = .ok s') :
    StepP (filamentCtx filament_id) s s' := by
  rcases processVariantDirectory_elim _ _ _ _ _ _ h with ⟨_, c, w, p, hs'⟩ |
    ⟨vd, slug, hvNew, _, _, _, hrest⟩
  · subst hs'
    exact ⟨grows_addWarning s c w p, fun ⟨hi, hc⟩ => ⟨inv_addWarning _ _ _ _ hi, hc⟩⟩
  · set vid := generate_variant_id filament_id (Obj.getD vd "id" (.str name)) with hvid
    set mid := { s with variants := s.variants ++ [variantEntity vd name filament_id slug hvNew] }
      with hmid
    have hgrow1 : Grows s mid := by
      refine ⟨⟨[], by simp [hmid]⟩, ⟨[], by simp [hmid]⟩, ⟨[], by simp [hmid]⟩,
        ⟨_, rfl⟩, ⟨[], by simp [hmid]⟩, ⟨[], by simp [hmid]⟩, ⟨[], by simp [hmid]⟩⟩
    have himp1 : (CrawlInv s ∧ filamentCtx filament_id s) →
        (CrawlInv mid ∧ filamentCtx filament_id mid ∧ variantCtx vid mid) := by
      rintro ⟨hi, hctx⟩
      refine ⟨⟨⟨hi.integ.pl_store, hi.integ.pl_size,
        resolves_mono_tgt hi.integ.size_variant ⟨_, rfl⟩, ?_,
        hi.integ.filament_material, hi.integ.filament_brand, hi.integ.material_brand⟩,
        hi.stCache, hi.matCache⟩, hctx, ?_⟩
      · refine resolves_append_src hi.integ.variant_filament ?_
        intro o ho
        rw [List.mem_singleton] at ho
        subst ho
        obtain ⟨x, hx, hid⟩ := hctx
        exact ⟨filament_id, variantEntity_filament_id _ _ _ _ _, x, hx, hid⟩
      · exact ⟨variantEntity vd name filament_id slug hvNew,
          List.mem_append_right _ (by simp), variantEntity_id _ _ _ _ _⟩
    rcases hrest with ⟨_, hs'⟩ | ⟨c, _, hrun⟩
    · subst hs'
      exact ⟨hgrow1, fun hh => let r := himp1 hh; ⟨r.1, r.2.1⟩⟩
    · have hstep2 := processSizesFile_step c vid _ mid s' hrun
      refine ⟨hgrow1.trans hstep2.1, ?_⟩
      rintro ⟨hi, hc⟩
      obtain ⟨hi1, hc1, hc2⟩ := himp1 ⟨hi, hc⟩
      obtain ⟨hi2, _⟩ := hstep2.2 ⟨hi1, hc2⟩
      exact ⟨hi2, filamentCtx_mono hstep2.1 hc1⟩

theorem processFilamentDirectory_step (parentPath name : String) (d : Dir)
    (brand_id material_id material_name : String) (s s' : CrawlState)
    (h : processFilamentDirectory parentPath name d brand_id material_id material_name s
      = .ok s') :
    StepP (fun t => brandCtx brand_id t ∧ materialCtx material_id t) s s' := by
  rcases processFilamentDirectory_elim _ _ _ _ _ _ _ _ h with ⟨c, w, p, hs'⟩ |
    ⟨fd, slug, _, _, hrun⟩
  · subst hs'
    exact ⟨grows_addWarning s c w p, fun ⟨hi, hc⟩ => ⟨inv_addWarning _ _ _ _ hi, hc⟩⟩
  · set fid := generate_filament_id brand_id material_id (Obj.getD fd "name" (.str name))
      with hfid
    set mid := { s with filaments := s.filaments ++
      [mkFilament fd fid brand_id material_id (Obj.getD fd "name" (.str name)) slug
        material_name] } with hmid
    have hgrow1 : Grows s mid := by
      refine ⟨⟨[], by simp [hmid]⟩, ⟨[], by simp [hmid]⟩, ⟨_, rfl⟩,
        ⟨[], by simp [hmid]⟩, ⟨[], by simp [hmid]⟩, ⟨[], by simp [hmid]⟩, ⟨[], by simp [hmid]⟩⟩
    have himp1 : (CrawlInv s ∧ (brandCtx brand_id s ∧ materialCtx material_id s)) →
        (CrawlInv mid ∧ (brandCtx brand_id mid ∧ materialCtx material_id mid) ∧
          filamentCtx fid mid) := by
      rintro ⟨hi, hb, hm⟩
      refine ⟨⟨⟨hi.integ.pl_store, hi.integ.pl_size, hi.integ.size_variant,
        resolves_mono_tgt hi.integ.variant_filament ⟨_, rfl⟩, ?_, ?_,
        hi.integ.material_brand⟩, hi.stCache, hi.matCache⟩, ⟨hb, hm⟩, ?_⟩
      · refine resolves_append_src hi.integ.filament_material ?_
        intro o ho
        rw [List.mem_singleton] at ho
        subst ho
        obtain ⟨x, hx, hid⟩ := hm
        exact ⟨material_id, mkFilament_material_id _ _ _ _ _ _ _, x, hx, hid⟩
      · refine resolves_append_src hi.integ.filament_brand ?_
        intro o ho
        rw [List.mem_singleton] at ho
        subst ho
        obtain ⟨⟨x, hx, hid⟩, _⟩ := hb
        exact ⟨brand_id, mkFilament_brand_id _ _ _ _ _ _ _, x, hx, hid⟩
      · exact ⟨mkFilament fd fid brand_id material_id (Obj.getD fd "name" (.str name)) slug
          material_name, List.mem_append_right _ (by simp), mkFilament_id _ _ _ _ _ _ _⟩
    have hstep2 : StepP (fun t => (brandCtx brand_id t ∧ materialCtx material_id t) ∧
        filamentCtx fid t) mid s' := by
      refine runList_rel (StepP_rfl _) (fun {a b c} => StepP_trans) _ ?_ mid s' hrun
      intro x _ t t' hx
      have hst := processVariantDirectory_step _ x.1 x.2 fid t t' hx
      exact ⟨hst.1, fun ⟨hi, hc1, hc2⟩ =>
        let r := hst.2 ⟨hi, hc2⟩
        ⟨r.1, ⟨brandCtx_mono hst.1 hc1.1, materialCtx_mono hst.1 hc1.2⟩, r.2⟩⟩
    refine ⟨hgrow1.trans hstep2.1, ?_⟩
    rintro ⟨hi, hc⟩
    obtain ⟨hi1, hc1, hc2⟩ := himp1 ⟨hi, hc⟩
    obtain ⟨hi2, hc'⟩ := hstep2.2 ⟨hi1, hc1, hc2⟩
    exact ⟨hi2, hc'.1⟩

theorem processMaterialDirectory_step (parentPath name : String) (d : Dir)
    (brand_id : String) (s s' : CrawlState)
    (h : processMaterialDirectory parentPath name d brand_id s = .ok s') :
    StepP (brandCtx brand_id) s s' := by
  obtain ⟨s1, s2, hs1, hbranch, hrun⟩ := processMaterialDirectory_elim _ _ _ _ _ _ h
  set mid := generate_material_id brand_id name with hmidid
  have hg01 : Grows s s1 := by
    rcases hs1 with h' | ⟨c, w, p, h'⟩
    · rw [h']
      exact Grows.rfl s
    · rw [h']
      exact grows_addWarning s c w p
  have hi01 : CrawlInv s → CrawlInv s1 := by
    rcases hs1 with h' | ⟨c, w, p, h'⟩
    · rw [h']
      exact id
    · rw [h']
      exact inv_addWarning s c w p
  have hc01 : brandCtx brand_id s → brandCtx brand_id s1 := brandCtx_mono hg01
  have hg12 : Grows s1 s2 := by
    rcases hbranch with ⟨_, h'⟩ | ⟨md, _, _, h'⟩
    · rw [h']
      exact Grows.rfl s1
    · rw [h']
      exact ⟨⟨[], by simp⟩, ⟨_, rfl⟩, ⟨[], by simp⟩, ⟨[], by simp⟩,
        ⟨[], by simp⟩, ⟨[], by simp⟩, ⟨[], by simp⟩⟩
  have hi12 : (CrawlInv s1 ∧ brandCtx brand_id s1) →
      (CrawlInv s2 ∧ brandCtx brand_id s2 ∧ materialCtx mid s2) := by
    rintro ⟨hi, hctx⟩
    rcases hbranch with ⟨hhit, h'⟩ | ⟨md, hmiss, _, h'⟩
    · subst h'
      refine ⟨hi, hctx, ?_⟩
      obtain ⟨p, hp, hpk⟩ := strCacheGet?_hit_mem hhit
      obtain ⟨⟨b, m, hdec, hcf, hval⟩, t, ht, hid⟩ := hi.matCache p hp
      have hkey : b ++ ":" ++ m = brand_id ++ ":" ++ name := by rw [← hdec, hpk]
      obtain ⟨hb, hm⟩ := cacheKey_inj b m brand_id name hcf hctx.2 hkey
      rw [hval, hb, hm] at hid
      exact ⟨t, ht, hid⟩
    · subst h'
      refine ⟨⟨⟨hi.integ.pl_store, hi.integ.pl_size, hi.integ.size_variant,
        hi.integ.variant_filament,
        resolves_mono_tgt hi.integ.filament_material ⟨_, rfl⟩, hi.integ.filament_brand,
        ?_⟩, hi.stCache, ?_⟩, hctx, ?_⟩
      · refine resolves_append_src hi.integ.material_brand ?_
        intro o ho
        rw [List.mem_singleton] at ho
        subst ho
        obtain ⟨⟨x, hx, hid⟩, _⟩ := hctx
        exact ⟨brand_id, mkMaterial_brand_id _ _ _ _, x, hx, hid⟩
      · intro p hp
        rcases strCacheSet_mem p hp with rfl | hp'
        · exact ⟨⟨brand_id, name, rfl, hctx.2, rfl⟩,
            mkMaterial md mid brand_id name, List.mem_append_right _ (by simp),
            mkMaterial_id _ _ _ _⟩
        · obtain ⟨hdec, t, ht, hid⟩ := hi.matCache p hp'
          exact ⟨hdec, t, List.mem_append_left _ ht, hid⟩
      · exact ⟨mkMaterial md mid brand_id name, List.mem_append_right _ (by simp),
          mkMaterial_id _ _ _ _⟩
  have hstep3 : StepP (fun t => brandCtx brand_id t ∧ materialCtx mid t) s2 s' := by
    refine runList_rel (StepP_rfl _) (fun {a b c} => StepP_trans) _ ?_ s2 s' hrun
    intro x _ t t' hx
    exact processFilamentDirectory_step _ x.1 x.2 brand_id mid name t t' hx
  refine ⟨(hg01.trans hg12).trans hstep3.1, ?_⟩
  rintro ⟨hi, hc⟩
  obtain ⟨hi2, hc2, hm2⟩ := hi12 ⟨hi01 hi, hc01 hc⟩
  obtain ⟨hi3, hc3⟩ := hstep3.2 ⟨hi2, hc2, hm2⟩
  exact ⟨hi3, hc3.1⟩

theorem processBrandDirectory_step (dataPath name : String) (d : Dir) (s s' : CrawlState)
    (h : processBrandDirectory dataPath name d s = .ok s') :
    StepP (fun _ => True) s s' := by
  rcases processBrandDirectory_elim _ _ _ _ _ h with ⟨c, w, p, hs'⟩ | ⟨bd, _, hrun⟩
  · subst hs'
    exact ⟨grows_addWarning s c w p, fun ⟨hi, _⟩ => ⟨inv_addWarning _ _ _ _ hi, trivial⟩⟩
  · set bid := generate_brand_id name with hbid
    set mid := ({ s with brands := s.brands ++ [mkBrand bd bid name], brandCache := strCacheSet s.brandCache name bid } : CrawlState) with hmid
    have hgrow1 : Grows s mid := by
      refine ⟨⟨_, rfl⟩, ⟨[], by simp [hmid]⟩, ⟨[], by simp [hmid]⟩, ⟨[], by simp [hmid]⟩,
        ⟨[], by simp [hmid]⟩, ⟨[], by simp [hmid]⟩, ⟨[], by simp [hmid]⟩⟩
    have himp1 : CrawlInv s → (CrawlInv mid ∧ brandCtx bid mid) := by
      intro hi
      refine ⟨⟨⟨hi.integ.pl_store, hi.integ.pl_size, hi.integ.size_variant,
        hi.integ.variant_filament, hi.integ.filament_material,
        resolves_mono_tgt hi.integ.filament_brand ⟨_, rfl⟩,
        resolves_mono_tgt hi.integ.material_brand ⟨_, rfl⟩⟩,
        hi.stCache, hi.matCache⟩, ?_, ?_⟩
      · exact ⟨mkBrand bd bid name, List.mem_append_right _ (by simp), mkBrand_id _ _ _⟩
      · exact genId_colon_free "brand" [name]
    have hstep2 : StepP (brandCtx bid) mid s' := by
      refine runList_rel (StepP_rfl _) (fun {a b c} => StepP_trans) _ ?_ mid s' hrun
      intro x _ t t' hx
      exact processMaterialDirectory_step _ x.1 x.2 bid t t' hx
    refine ⟨hgrow1.trans hstep2.1, ?_⟩
    rintro ⟨hi, _⟩
    obtain ⟨hi1, hc1⟩ := himp1 hi
    obtain ⟨hi2, _⟩ := hstep2.2 ⟨hi1, hc1⟩
    exact ⟨hi2, trivial⟩

theorem processStoreDirectory_step (storesPath name : String) (d : Dir) (s s' : CrawlState)
    (h : processStoreDirectory storesPath name d s = .ok s') :
    StepP (fun _ => True) s s' := by
  rcases processStoreDirectory_elim _ _ _ _ _ h with hs' | ⟨c, w, p, hs'⟩ |
    ⟨data, slug, _, _, _, _, hs'⟩
  · subst hs'
    exact StepP_rfl _ _
  · subst hs'
    exact ⟨grows_addWarning s c w p, fun ⟨hi, _⟩ => ⟨inv_addWarning _ _ _ _ hi, trivial⟩⟩
  · subst hs'
    refine ⟨⟨⟨[], by simp⟩, ⟨[], by simp⟩, ⟨[], by simp⟩, ⟨[], by simp⟩,
      ⟨[], by simp⟩, ⟨_, rfl⟩, ⟨[], by simp⟩⟩, ?_⟩
    rintro ⟨hi, _⟩
    refine ⟨⟨⟨resolves_mono_tgt hi.integ.pl_store ⟨_, rfl⟩, hi.integ.pl_size,
      hi.integ.size_variant, hi.integ.variant_filament, hi.integ.filament_material,
      hi.integ.filament_brand, hi.integ.material_brand⟩, ?_, hi.matCache⟩, trivial⟩
    intro p hp
    rcases storeCacheSet_mem p hp with hpv | hp'
    · refine ⟨mkStore data (generate_store_id (Obj.getD data "id" .null))
        (Obj.getD data "name" (.str name)) slug name, List.mem_append_right _ (by simp), ?_⟩
      rw [hpv]
      exact mkStore_id _ _ _ _ _
    · obtain ⟨t, ht, hid⟩ := hi.stCache p hp'
      exact ⟨t, List.mem_append_left _ ht, hid⟩

theorem initialState_inv : CrawlInv initialState := by
  refine ⟨⟨?_, ?_, ?_, ?_, ?_, ?_, ?_⟩, ?_, ?_⟩ <;>
    intro p hp <;> cases hp

/-- The end-to-end invariant: a successful `crawl_data` returns a snapshot
satisfying the full referential-integrity invariant. -/
theorem crawl_data_inv (dataDir? storesDir? : Option Dir) (st : CrawlState)
    (h : crawl_data dataDir? storesDir? = .ok st) : CrawlInv st := by
  obtain ⟨s1, hstores, hdata⟩ := crawl_data_elim _ _ _ h
  have step1 : StepP (fun _ => True) initialState s1 := by
    rcases crawlStoresDirectory_elim _ _ _ hstores with ⟨c, w, p, hs'⟩ | ⟨d, _, hrun⟩
    · subst hs'
      exact ⟨grows_addWarning _ c w p, fun ⟨hi, _⟩ => ⟨inv_addWarning _ _ _ _ hi, trivial⟩⟩
    · refine runList_rel (StepP_rfl _) (fun {a b c} => StepP_trans) _ ?_ _ _ hrun
      intro x _ t t' hx
      exact processStoreDirectory_step _ x.1 x.2 t t' hx
  have step2 : StepP (fun _ => True) s1 st := by
    rcases crawlDataDirectory_elim _ _ _ hdata with ⟨c, w, p, hs'⟩ | ⟨d, _, hrun⟩
    · subst hs'
      exact ⟨grows_addWarning _ c w p, fun ⟨hi, _⟩ => ⟨inv_addWarning _ _ _ _ hi, trivial⟩⟩
    · refine runList_rel (StepP_rfl _) (fun {a b c} => StepP_trans) _ ?_ _ _ hrun
      intro x _ t t' hx
      exact processBrandDirectory_step _ x.1 x.2 t t' hx
  exact ((StepP_trans step1 step2).2 ⟨initialState_inv, trivial⟩).1

/-! ## Claim C2 — referential integrity of every snapshot -/

/-- C2: in every snapshot `crawl_data` returns, every foreign key resolves
within that same snapshot: each PurchaseLink's store_id is the id of some
Store and its size_id the id of some Size; each Size's variant_id resolves
to a Variant, each Variant's filament_id to a Filament, each Filament's
material_id and brand_id to a Material and a Brand, and each Material's
brand_id to a Brand.  No entity with an unresolved reference is present —
an entity whose reference cannot be resolved is never appended. -/
theorem C2_referential_integrity (dataDir? storesDir? : Option Dir) (st : CrawlState)
    (h : crawl_data dataDir? storesDir? = .ok st) :
    resolves st.purchase_links "store_id" st.stores ∧
    resolves st.purchase_links "size_id" st.sizes ∧
    resolves st.sizes "variant_id" st.variants ∧
    resolves st.variants "filament_id" st.filaments ∧
    resolves st.filaments "material_id" st.materials ∧
    resolves st.filaments "brand_id" st.brands ∧
    resolves st.materials "brand_id" st.brands := by
  have hi := crawl_data_inv _ _ _ h
  exact ⟨hi.integ.pl_store, hi.integ.pl_size, hi.integ.size_variant,
    hi.integ.variant_filament, hi.integ.filament_material, hi.integ.filament_brand,
    hi.integ.material_brand⟩

/-- Witness for C2 at a concrete source tree containing every entity
type. -/
theorem C2_referential_integrity_witness :
    ∃ st, crawl_data (some c2Data) (some c2Stores) = .ok st ∧
      resolves st.purchase_links "store_id" st.stores ∧
      resolves st.purchase_links "size_id" st.sizes ∧
      resolves st.sizes "variant_id" st.variants ∧
      resolves st.variants "filament_id" st.filaments ∧
      resolves st.filaments "material_id" st.materials ∧
      resolves st.filaments "brand_id" st.brands ∧
      resolves st.materials "brand_id" st.brands := by
  have hok : (crawl_data (some c2Data) (some c2Stores)).isOk = true := by decide
  cases hcr : crawl_data (some c2Data) (some c2Stores) with
  | error e =>
      rw [hcr] at hok
      cases hok
  | ok st =>
      exact ⟨st, rfl, C2_referential_integrity (some c2Data) (some c2Stores) st hcr⟩

/-! ## Claim C6 — hex-variant normalization and the empty case -/

theorem createPurchaseLink_variants (plEntry : Json) (size_id : String) (i j : Nat)
    (path : String) (s s' : CrawlState)
    (h : createPurchaseLink plEntry size_id i j path s = .ok s') :
    s'.variants = s.variants := by
  rcases createPurchaseLink_elim _ _ _ _ _ _ _ h with ⟨c, w, _, hs'⟩ | ⟨pl, u, _, _, hs'⟩
  · subst hs'
    rfl
  · subst hs'
    rfl

theorem createSize_variants (entry : Json) (variant_id : String) (index : Nat)
    (path : String) (s s' : CrawlState)
    (h : createSize entry variant_id index path s = .ok s') :
    s'.variants = s.variants := by
  rcases createSize_elim _ _ _ _ _ _ h with ⟨w, hs'⟩ | ⟨e, wt, dia, pls, _, _, _, _, hrun⟩
  · subst hs'
    rfl
  · have hrl := @runList_rel _ _ (fun a b => b.variants = a.variants)
      (fun t => rfl) (fun {a b c} hab hbc => hbc.trans hab) pls.enum
      (fun x _ t t' hx => createPurchaseLink_variants _ _ _ _ _ _ _ hx) _ s' hrun
    exact hrl

theorem processSizesFile_variants (content : Option Json) (variant_id path : String)
    (s s' : CrawlState) (h : processSizesFile content variant_id path s = .ok s') :
    s'.variants = s.variants := by
  rcases processSizesFile_elim _ _ _ _ _ h with hs' | ⟨sd, _, hrun⟩
  · subst hs'
    rfl
  · exact @runList_rel _ _ (fun a b => b.variants = a.variants)
      (fun t => rfl) (fun {a b c} hab hbc => hbc.trans hab) _
      (fun x _ t t' hx => createSize_variants _ _ _ _ _ _ hx) s s' hrun

theorem mkVariant_hex_variants (vd : Obj) (vid fid slug : String) (nameVal colorHex : Json) :
    Obj.get? (mkVariant vd vid fid slug nameVal colorHex) "hex_variants" =
      Obj.get? vd "hex_variants" := by
  unfold mkVariant
  rw [Obj.get?_set_ne _ _ _ _ (by decide), Obj.get?_set_ne _ _ _ _ (by decide),
    Obj.get?_set_ne _ _ _ _ (by decide), Obj.get?_set_ne _ _ _ _ (by decide),
    Obj.get?_set_ne _ _ _ _ (by decide), Obj.get?_set_ne _ _ _ _ (by decide)]

theorem variantEntity_hex_none (vd : Obj) (name fid slug : String) :
    Obj.get? (variantEntity vd name fid slug none) "hex_variants" =
      Obj.get? vd "hex_variants" := by
  unfold variantEntity
  exact mkVariant_hex_variants _ _ _ _ _ _

theorem variantEntity_hex_some (vd : Obj) (name fid slug : String) (l : List Json) :
    Obj.get? (variantEntity vd name fid slug (some l)) "hex_variants" =
      (if l.isEmpty then Obj.get? vd "hex_variants" else some (Json.arr l)) := by
  unfold variantEntity
  dsimp only
  by_cases hl : l.isEmpty = true
  · rw [if_pos hl, if_pos hl]
    exact mkVariant_hex_variants _ _ _ _ _ _
  · rw [if_neg hl, if_neg hl]
    exact Obj.get?_set_self _ _ _

/-- C6 counterexample: a variant document declaring `"hex_variants": []`
(a source array whose normalization is empty) yields a Variant entity on
which the `hex_variants` key is *present*, bound to the raw source array
`[]` — it is not absent as the claim requires: the guarded reassignment
only runs for a truthy normalized list, while `**variant_data` has
already spread the raw key into the entity. -/
theorem C6_counterexample :
    (processVariantDirectory "data/b/m/f" "v1" c6Dir "fil-1" initialState).map
        (fun s => s.variants.map (fun v => Obj.get? v "hex_variants")) =
      .ok [some (Json.arr [])] := by
  rfl

/-- C6 (amended): for a variant document whose `hex_variants` key holds an
array, the resulting Variant entity always carries the `hex_variants`
key: when the element-wise normalization of the source array (falsy
elements dropped, each survivor replaced by its color-hex normalization,
`null` when malformed) is nonempty, the field is exactly that normalized
array; but when the normalized array is empty — the source an empty
array, or every element filtered out — the key is *not* absent: the raw
source array survives into the entity unchanged. -/
theorem C6_hex_variants_amended (parentPath name : String) (d : Dir)
    (filament_id : String) (s s' : CrawlState) (vd : Obj) (xs : List Json)
    (hf : d.file? "variant.json" = some (some (.obj vd)))
    (hsrc : Obj.get? vd "hex_variants" = some (Json.arr xs))
    (h : processVariantDirectory parentPath name d filament_id s = .ok s') :
    ∃ v, s'.variants = s.variants ++ [v] ∧
      (((xs.filter Json.truthy).map normHexElem).isEmpty = false →
        Obj.get? v "hex_variants" =
          some (Json.arr ((xs.filter Json.truthy).map normHexElem))) ∧
      (((xs.filter Json.truthy).map normHexElem).isEmpty = true →
        Obj.get? v "hex_variants" = some (Json.arr xs)) := by
  rcases processVariantDirectory_elim _ _ _ _ _ _ h with ⟨hfile, _, _, _, _⟩ |
    ⟨vd', slug, hvNew, hf', hhv, hsl, hrest⟩
  · rcases hfile with hn | hn <;> rw [hf] at hn <;> cases hn
  · rw [hf] at hf'
    have hvd : vd = vd' :=
      Json.obj.inj (Option.some.inj (Option.some.inj hf'))
    subst hvd
    have hgd : Obj.getD vd "hex_variants" Json.null = Json.arr xs := by
      unfold Obj.getD
      rw [hsrc]
      rfl
    rw [hgd] at hhv
    have hvar : s'.variants =
        s.variants ++ [variantEntity vd name filament_id slug hvNew] := by
      rcases hrest with ⟨_, hs'⟩ | ⟨c, _, hrun⟩
      · rw [hs']
      · rw [processSizesFile_variants _ _ _ _ _ hrun]
    refine ⟨variantEntity vd name filament_id slug hvNew, hvar, ?_, ?_⟩
    · intro hne
      cases xs with
      | nil => exact Bool.noConfusion hne
      | cons x t =>
          have hhv0 : Except.ok (some (((x :: t).filter Json.truthy).map normHexElem)) =
              Except.ok hvNew := hhv
          rw [← Except.ok.inj hhv0, variantEntity_hex_some]
          rw [if_neg (by rw [hne]; exact fun hh => Bool.noConfusion hh)]
    · intro hemp
      cases xs with
      | nil =>
          have hhv0 : Except.ok (none : Option (List Json)) = Except.ok hvNew := hhv
          rw [← Except.ok.inj hhv0, variantEntity_hex_none, hsrc]
      | cons x t =>
          have hhv0 : Except.ok (some (((x :: t).filter Json.truthy).map normHexElem)) =
              Except.ok hvNew := hhv
          rw [← Except.ok.inj hhv0, variantEntity_hex_some, if_pos hemp, hsrc]

/-- Witness for the amended C6 at a concrete variant document: the falsy
element `""` is dropped and `"#abc123"` normalizes to `"#ABC123"`. -/
theorem C6_hex_variants_amended_witness :
    ∃ s' v, processVariantDirectory "data/b/m/f" "v1" c6WitDir "fil-1" initialState
        = .ok s' ∧
      s'.variants = initialState.variants ++ [v] ∧
      Obj.get? v "hex_variants" = some (Json.arr [Json.str "#ABC123"]) := by
  have hok : (processVariantDirectory "data/b/m/f" "v1" c6WitDir "fil-1" initialState).isOk
      = true := by decide
  cases hcr : processVariantDirectory "data/b/m/f" "v1" c6WitDir "fil-1" initialState with
  | error e =>
      rw [hcr] at hok
      cases hok
  | ok s' =>
      obtain ⟨v, hv, h1, _⟩ := C6_hex_variants_amended "data/b/m/f" "v1" c6WitDir "fil-1"
        initialState s'
        [("id", Json.str "v1"),
         ("hex_variants", Json.arr [Json.str "#abc123", Json.str ""])]
        [Json.str "#abc123", Json.str ""] rfl rfl hcr
      refine ⟨s', v, rfl, hv, ?_⟩
      rw [h1 (by decide)]
      rfl

/-! ## Claim C7 — the computed color_hex of a variant -/

theorem hexUp_upper (c : Char) (h : isHexDigitChar c = true) :
    upperHexDigits.contains (hexUp c) = true := by
  have hmem : c ∈ hexDigits := by
    unfold isHexDigitChar at h
    simpa using h
  fin_cases hmem <;> decide

theorem norm_hex_valid (v : Json) (c : String) (h : normalize_color_hex v = some c) :
    isNormHex c = true := by
  cases v with
  | str s =>
      unfold normalize_color_hex at h
      dsimp only at h
      set body := (match s.data with | '#' :: rest => rest | ds => ds) with hbody
      by_cases hcond : (body.length = 6 && body.all isHexDigitChar) = true
      · rw [if_pos hcond] at h
        have hc : c = ⟨'#' :: body.map hexUp⟩ := (Option.some.inj h).symm
        subst hc
        unfold isNormHex
        dsimp only
        rw [Bool.and_eq_true] at hcond
        rw [Bool.and_eq_true, Bool.and_eq_true]
        refine ⟨⟨by decide, ?_⟩, ?_⟩
        · rw [List.length_map]
          exact hcond.1
        · rw [List.all_eq_true]
          intro x hx
          rw [List.mem_map] at hx
          obtain ⟨y, hy, rfl⟩ := hx
          exact hexUp_upper y (List.all_eq_true.mp hcond.2 y hy)
      · rw [if_neg hcond] at h
        cases h
  | null => exact Option.noConfusion h
  | bool b => exact Option.noConfusion h
  | int n => exact Option.noConfusion h
  | float f => exact Option.noConfusion h
  | arr xs => exact Option.noConfusion h
  | obj o => exact Option.noConfusion h

theorem mkVariant_color_hex (vd : Obj) (vid fid slug : String) (nameVal colorHex : Json) :
    Obj.get? (mkVariant vd vid fid slug nameVal colorHex) "color_hex" = some colorHex := by
  unfold mkVariant
  rw [Obj.get?_set_ne _ _ _ _ (by decide), Obj.get?_set_self]

theorem variantEntity_color_hex (vd : Obj) (name fid slug : String)
    (hvNew : Option (List Json)) :
    Obj.get? (variantEntity vd name fid slug hvNew) "color_hex" =
      some (colorHexVal (Obj.getD vd "color_hex" (.str "#000000"))) := by
  unfold variantEntity
  cases hvNew with
  | none => exact mkVariant_color_hex _ _ _ _ _ _
  | some l =>
      dsimp only
      by_cases hl : l.isEmpty = true
      · rw [if_pos hl]
        exact mkVariant_color_hex _ _ _ _ _ _
      · rw [if_neg hl]
        rw [Obj.get?_set_ne _ _ _ _ (by decide)]
        exact mkVariant_color_hex _ _ _ _ _ _

/-- C7 counterexample: a variant document with `"color_hex": ["zz"]` — a
nonempty array whose first element is malformed — yields an entity whose
color_hex is `null` (Python `None`): the array branch of line 277 has no
`or "#000000"` fallback, so the claim's `"#000000"` default does not
apply and the result is not a hex string at all. -/
theorem C7_counterexample :
    (processVariantDirectory "data/b/m/f" "v1" c7Dir "fil-1" initialState).map
        (fun s => s.variants.map (fun v => Obj.get? v "color_hex")) =
      .ok [some Json.null] := by
  rfl

/-- C7 (amended): the Variant entity's color_hex field is the crawler's
computed value of the source `color_hex` (absent source defaulting to
`"#000000"`); that computed value is a six-hex-digit, `#`-prefixed,
uppercase string in every case *except* a nonempty source array whose
first element fails normalization, which yields `null` instead of the
claimed `"#000000"`; the spec's example `["#AbC123", "#000000"]` does
yield `"#ABC123"`. -/
theorem C7_color_hex_amended (parentPath name : String) (d : Dir) (filament_id : String)
    (s s' : CrawlState) (vd : Obj)
    (hf : d.file? "variant.json" = some (some (.obj vd)))
    (h : processVariantDirectory parentPath name d filament_id s = .ok s') :
    (∃ v, s'.variants = s.variants ++ [v] ∧
      Obj.get? v "color_hex" = some (colorHexVal (Obj.getD vd "color_hex" (.str "#000000")))) ∧
    (∀ raw : Json, (∀ h0 t0, raw = Json.arr (h0 :: t0) → normalize_color_hex h0 ≠ none) →
      ∃ c, colorHexVal raw = Json.str c ∧ isNormHex c = true) ∧
    (∀ h0 t0, normalize_color_hex h0 = none →
      colorHexVal (Json.arr (h0 :: t0)) = Json.null) ∧
    colorHexVal (Json.arr [Json.str "#AbC123", Json.str "#000000"]) = Json.str "#ABC123" := by
  refine ⟨?_, ?_, ?_, by rfl⟩
  · rcases processVariantDirectory_elim _ _ _ _ _ _ h with ⟨hfile, _, _, _, _⟩ |
      ⟨vd', slug, hvNew, hf', hhv, hsl, hrest⟩
    · rcases hfile with hn | hn <;> rw [hf] at hn <;> cases hn
    · rw [hf] at hf'
      have hvd : vd = vd' :=
        Json.obj.inj (Option.some.inj (Option.some.inj hf'))
      subst hvd
      have hvar : s'.variants =
          s.variants ++ [variantEntity vd name filament_id slug hvNew] := by
        rcases hrest with ⟨_, hs'⟩ | ⟨c, _, hrun⟩
        · rw [hs']
        · rw [processSizesFile_variants _ _ _ _ _ hrun]
      exact ⟨variantEntity vd name filament_id slug hvNew, hvar,
        variantEntity_color_hex _ _ _ _ _⟩
  · intro raw hraw
    cases raw with
    | arr xs =>
        cases xs with
        | nil => exact ⟨"#000000", rfl, by decide⟩
        | cons h0 t0 =>
            have hred : colorHexVal (Json.arr (h0 :: t0)) =
                (match normalize_color_hex h0 with
                 | some c => Json.str c
                 | none => Json.null) := rfl
            cases hn : normalize_color_hex h0 with
            | none => exact absurd hn (hraw h0 t0 rfl)
            | some c =>
                refine ⟨c, ?_, norm_hex_valid _ _ hn⟩
                rw [hred, hn]
    | null =>
        refine ⟨(normalize_color_hex Json.null).getD "#000000", rfl, ?_⟩
        cases hn : normalize_color_hex Json.null with
        | none => decide
        | some c => exact norm_hex_valid _ _ hn
    | bool b =>
        refine ⟨(normalize_color_hex (Json.bool b)).getD "#000000", rfl, ?_⟩
        cases hn : normalize_color_hex (Json.bool b) with
        | none => decide
        | some c => exact norm_hex_valid _ _ hn
    | int n =>
        refine ⟨(normalize_color_hex (Json.int n)).getD "#000000", rfl, ?_⟩
        cases hn : normalize_color_hex (Json.int n) with
        | none => decide
        | some c => exact norm_hex_valid _ _ hn
    | float f =>
        refine ⟨(normalize_color_hex (Json.float f)).getD "#000000", rfl, ?_⟩
        cases hn : normalize_color_hex (Json.float f) with
        | none => decide
        | some c => exact norm_hex_valid _ _ hn
    | str t =>
        refine ⟨(normalize_color_hex (Json.str t)).getD "#000000", rfl, ?_⟩
        cases hn : normalize_color_hex (Json.str t) with
        | none => decide
        | some c => exact norm_hex_valid _ _ hn
    | obj o =>
        refine ⟨(normalize_color_hex (Json.obj o)).getD "#000000", rfl, ?_⟩
        cases hn : normalize_color_hex (Json.obj o) with
        | none => decide
        | some c => exact norm_hex_valid _ _ hn
  · intro h0 t0 hn
    have hred : colorHexVal (Json.arr (h0 :: t0)) =
        (match normalize_color_hex h0 with
         | some c => Json.str c
         | none => Json.null) := rfl
    rw [hred, hn]

/-- Witness for the amended C7 at the spec's own example array. -/
theorem C7_color_hex_amended_witness :
    ∃ s' v, processVariantDirectory "data/b/m/f" "v1" c7WitDir "fil-1" initialState
        = .ok s' ∧
      s'.variants = initialState.variants ++ [v] ∧
      Obj.get? v "color_hex" = some (Json.str "#ABC123") := by
  have hok : (processVariantDirectory "data/b/m/f" "v1" c7WitDir "fil-1" initialState).isOk
      = true := by decide
  cases hcr : processVariantDirectory "data/b/m/f" "v1" c7WitDir "fil-1" initialState with
  | error e =>
      rw [hcr] at hok
      cases hok
  | ok s' =>
      obtain ⟨⟨v, hv, hch⟩, _, _, _⟩ := C7_color_hex_amended "data/b/m/f" "v1" c7WitDir
        "fil-1" initialState s'
        [("id", Json.str "v1"),
         ("color_hex", Json.arr [Json.str "#AbC123", Json.str "#000000"])] rfl hcr
      refine ⟨s', v, rfl, hv, ?_⟩
      rw [hch]
      rfl

/-! ## Claim C8 — unresolved store reference on a purchase link -/

/-- C8: a purchase-link entry with a truthy store_id and url whose
store_id does not resolve through the store cache yields exactly one
"Invalid Reference" warning (the spec taxonomy's InvalidReference) and
drops only that link — the state is otherwise unchanged, so the owning
Size already appended stays; and concretely, a build whose only link
names `store_id: "missing"` ends with 0 PurchaseLinks, 1 InvalidReference
warning, and the Size still present. -/
theorem C8_invalid_reference_dropped (pl : Obj) (size_id : String) (i j : Nat)
    (path : String) (s : CrawlState)
    (hsid : (Obj.getD pl "store_id" Json.null).truthy = true)
    (hurl : (Obj.getD pl "url" Json.null).truthy = true)
    (hhash : hashable (Obj.getD pl "store_id" Json.null) = true)
    (hmiss : storeCacheGet? s.storeCache (Obj.getD pl "store_id" Json.null) = none) :
    (∃ w, createPurchaseLink (.obj pl) size_id i j path s =
        .ok (addWarning s "Invalid Reference" w path) ∧
      (addWarning s "Invalid Reference" w path).purchase_links = s.purchase_links ∧
      (addWarning s "Invalid Reference" w path).sizes = s.sizes) ∧
    ((crawl_data (some c8Data) (some c8Stores)).map
        (fun st => (st.purchase_links, st.warnings.map Warning.category, st.sizes.length)) =
      .ok ([], ["Invalid Reference"], 1)) := by
  refine ⟨?_, by rfl⟩
  unfold createPurchaseLink
  rw [show asObj (Json.obj pl) = Except.ok pl from rfl, except_bind_ok]
  dsimp only
  rw [if_neg (fun hor => hor.elim (fun hna => hna hsid) (fun hnu => hnu hurl))]
  rw [if_neg (fun hnh => hnh hhash)]
  rw [hmiss]
  exact ⟨_, rfl, rfl, rfl⟩

/-- Witness for C8 at a concrete purchase-link entry and empty cache. -/
theorem C8_invalid_reference_dropped_witness :
    ∃ w, createPurchaseLink (.obj [("store_id", Json.str "missing"), ("url", Json.str "u")])
        "size-1" 0 0 "p" initialState =
      .ok (addWarning initialState "Invalid Reference" w "p") := by
  obtain ⟨⟨w, hw, _, _⟩, _⟩ := C8_invalid_reference_dropped
    [("store_id", Json.str "missing"), ("url", Json.str "u")] "size-1" 0 0 "p" initialState
    (by decide) (by decide) (by decide) rfl
  exact ⟨w, hw⟩

/-! ## Claim C1 — what does and does not crash the crawl -/

theorem isNullJ_eq {v : Json} (h : isNullJ v = true) : v = Json.null := by
  cases v
  case null => rfl
  all_goals exact Bool.noConfusion h

theorem pyInt_ok_of_some {v : Json} {n : Int} (h : pyInt? v = some n) :
    pyInt v = Except.ok n := by
  unfold pyInt
  rw [h]

theorem pyFloat_ok_of_some {v : Json} {q : PyFloat} (h : pyFloat? v = some q) :
    pyFloat v = Except.ok q := by
  unfold pyFloat
  rw [h]

theorem except_isOk_exists {α : Type} {e : Except String α} (h : e.isOk = true) :
    ∃ a, e = Except.ok a := by
  cases e with
  | ok a => exact ⟨a, rfl⟩
  | error msg => exact Bool.noConfusion h

theorem pySlugify_getD_isOk {vd : Obj} {k : String} (h : isStrOptOk (Obj.get? vd k) = true)
    (dflt : String) :
    ∃ t, pySlugify (Obj.getD vd k (Json.str dflt)) = .ok t := by
  unfold Obj.getD
  cases hg : Obj.get? vd k with
  | none => exact ⟨slugify dflt, rfl⟩
  | some j =>
      rw [hg] at h
      cases j
      case str t => exact ⟨slugify t, rfl⟩
      all_goals exact Bool.noConfusion h

theorem mem_of_mem_enum {α : Type} {l : List α} {x : Nat × α} (hx : x ∈ l.enum) :
    x.2 ∈ l := by
  have h1 : x.2 ∈ l.enum.map Prod.snd := List.mem_map_of_mem Prod.snd hx
  rwa [List.enum_map_snd] at h1

theorem createPurchaseLink_isOk (v : Json) (size_id : String) (i j : Nat) (path : String)
    (hv : goodPlEntry v = true) (s : CrawlState) :
    ∃ s', createPurchaseLink v size_id i j path s = .ok s' := by
  cases v with
  | obj pl =>
      unfold goodPlEntry at hv
      dsimp only at hv
      unfold createPurchaseLink
      rw [show asObj (Json.obj pl) = Except.ok pl from rfl, except_bind_ok]
      dsimp only
      by_cases h1 : (¬ (Obj.getD pl "store_id" Json.null).truthy = true ∨
          ¬ (Obj.getD pl "url" Json.null).truthy = true)
      · rw [if_pos h1]
        exact ⟨_, rfl⟩
      · rw [if_neg h1]
        rw [not_or, not_not, not_not] at h1
        have hh : hashable (Obj.getD pl "store_id" Json.null) = true := by
          rw [h1.1, h1.2] at hv
          simpa using hv
        rw [if_neg (fun hnh => hnh hh)]
        cases hcg : storeCacheGet? s.storeCache (Obj.getD pl "store_id" Json.null)
        · exact ⟨_, rfl⟩
        · exact ⟨_, rfl⟩
  | null => exact Bool.noConfusion hv
  | bool b => exact Bool.noConfusion hv
  | int n => exact Bool.noConfusion hv
  | float f => exact Bool.noConfusion hv
  | str t => exact Bool.noConfusion hv
  | arr xs => exact Bool.noConfusion hv

theorem createSize_isOk (v : Json) (variant_id : String) (index : Nat) (path : String)
    (hv : goodSizeEntry v = true) (s : CrawlState) :
    ∃ s', createSize v variant_id index path s = .ok s' := by
  cases v with
  | obj e =>
      unfold goodSizeEntry at hv
      rw [Bool.or_eq_true] at hv
      unfold createSize
      rw [show asObj (Json.obj e) = Except.ok e from rfl, except_bind_ok]
      dsimp only
      by_cases hwnull : isNullJ (Obj.getD e "filament_weight" Json.null) = true
      · rw [isNullJ_eq hwnull]
        exact ⟨_, rfl⟩
      · have hrest := hv.resolve_left hwnull
        rw [Bool.and_eq_true, Bool.and_eq_true] at hrest
        obtain ⟨⟨hint, hfl⟩, hpls⟩ := hrest
        cases hit : pyIterate (Obj.getD e "purchase_links" (Json.arr [])) with
        | error msg =>
            rw [hit] at hpls
            exact Bool.noConfusion hpls
        | ok pls =>
            rw [hit] at hpls
            cases hw : Obj.getD e "filament_weight" Json.null
            · rw [hw] at hwnull
              exact absurd rfl hwnull
            all_goals (
              rw [hw] at hint
              obtain ⟨n, hn⟩ := Option.isSome_iff_exists.mp hint
              obtain ⟨q, hq⟩ := Option.isSome_iff_exists.mp hfl
              try dsimp only
              rw [pyInt_ok_of_some hn, except_bind_ok, pyFloat_ok_of_some hq,
                except_bind_ok]
              exact runList_isOk pls.enum
                (fun x hx t => createPurchaseLink_isOk x.2 _ _ _ _
                  (List.all_eq_true.mp hpls x.2 (mem_of_mem_enum hx)) t) _)
  | null => exact Bool.noConfusion hv
  | bool b => exact Bool.noConfusion hv
  | int n => exact Bool.noConfusion hv
  | float f => exact Bool.noConfusion hv
  | str t => exact Bool.noConfusion hv
  | arr xs => exact Bool.noConfusion hv

theorem processSizesFile_isOk (content : Option Json) (variant_id path : String)
    (hc : goodSizesDoc content = true) (s : CrawlState) :
    ∃ s', processSizesFile content variant_id path s = .ok s' := by
  cases content with
  | none => exact ⟨_, rfl⟩
  | some sd =>
      unfold goodSizesDoc at hc
      unfold processSizesFile
      exact runList_isOk _
        (fun x hx t => createSize_isOk x.2 variant_id x.1 path
          (List.all_eq_true.mp hc x.2 (mem_of_mem_enum hx)) t) s

theorem processVariantDirectory_isOk (parentPath name : String) (d : Dir)
    (filament_id : String) (hd : goodVariantDir d = true) (s : CrawlState) :
    ∃ s', processVariantDirectory parentPath name d filament_id s = .ok s' := by
  unfold goodVariantDir at hd
  unfold processVariantDirectory
  cases hf : d.file? "variant.json" with
  | none => exact ⟨_, rfl⟩
  | some c =>
      cases c with
      | none => exact ⟨_, rfl⟩
      | some doc =>
          rw [hf] at hd
          cases doc
          case obj vd =>
            dsimp only at hd
            rw [Bool.and_eq_true, Bool.and_eq_true] at hd
            obtain ⟨⟨hid, hhv⟩, hsz⟩ := hd
            try dsimp only
            rw [show asObj (Json.obj vd) = Except.ok vd from rfl, except_bind_ok]
            try dsimp only
            obtain ⟨hv1, hhv1⟩ := except_isOk_exists hhv
            rw [hhv1, except_bind_ok]
            obtain ⟨slug, hsl⟩ := pySlugify_getD_isOk hid name
            rw [hsl, except_bind_ok]
            try dsimp only
            cases hsz2 : d.file? "sizes.json" with
            | none => exact ⟨_, rfl⟩
            | some c2 =>
                rw [hsz2] at hsz
                exact processSizesFile_isOk c2 _ _ hsz _
          all_goals exact Bool.noConfusion hd

theorem processFilamentDirectory_isOk (parentPath name : String) (d : Dir)
    (brand_id material_id material_name : String) (hd : goodFilamentDir d = true)
    (s : CrawlState) :
    ∃ s', processFilamentDirectory parentPath name d brand_id material_id material_name s
      = .ok s' := by
  unfold goodFilamentDir at hd
  unfold processFilamentDirectory
  cases hf : d.file? "filament.json" with
  | none => exact ⟨_, rfl⟩
  | some c =>
      cases c with
      | none => exact ⟨_, rfl⟩
      | some doc =>
          rw [hf] at hd
          cases doc
          case obj fd =>
            dsimp only at hd
            rw [Bool.and_eq_true] at hd
            obtain ⟨hname, hall⟩ := hd
            try dsimp only
            rw [show asObj (Json.obj fd) = Except.ok fd from rfl, except_bind_ok]
            try dsimp only
            obtain ⟨slug, hsl⟩ := pySlugify_getD_isOk hname name
            rw [hsl, except_bind_ok]
            exact runList_isOk d.visible
              (fun x hx t => processVariantDirectory_isOk _ x.1 x.2 _
                (List.all_eq_true.mp hall x hx) t) _
          all_goals exact Bool.noConfusion hd

theorem materialDoc_asObj (parentPath name : String) (d : Dir) (s : CrawlState)
    (h : (match d.file? "material.json" with
       | some (some (.obj _)) => true
       | some (some _) => false
       | _ => true) = true) :
    ∃ md, asObj (materialDocResolve parentPath name d s).2 = .ok md := by
  unfold materialDocResolve
  cases hf : d.file? "material.json" with
  | none => exact ⟨[], rfl⟩
  | some c =>
      cases c with
      | none => exact ⟨[], rfl⟩
      | some doc =>
          rw [hf] at h
          cases doc
          case obj md => exact ⟨md, rfl⟩
          all_goals exact Bool.noConfusion h

theorem processMaterialDirectory_isOk (parentPath name : String) (d : Dir)
    (brand_id : String) (hd : goodMaterialDir d = true) (s : CrawlState) :
    ∃ s', processMaterialDirectory parentPath name d brand_id s = .ok s' := by
  unfold goodMaterialDir at hd
  rw [Bool.and_eq_true] at hd
  obtain ⟨hdoc1, hall⟩ := hd
  unfold processMaterialDirectory
  try dsimp only
  by_cases hc : (strCacheGet? (materialDocResolve parentPath name d s).1.materialCache
      (brand_id ++ ":" ++ name)).isNone = true
  · rw [if_pos hc]
    obtain ⟨md, hmd⟩ := materialDoc_asObj parentPath name d s hdoc1
    rw [hmd, except_bind_ok]
    exact runList_isOk d.visible
      (fun x hx t => processFilamentDirectory_isOk _ x.1 x.2 _ _ _
        (List.all_eq_true.mp hall x hx) t) _
  · rw [if_neg hc]
    exact runList_isOk d.visible
      (fun x hx t => processFilamentDirectory_isOk _ x.1 x.2 _ _ _
        (List.all_eq_true.mp hall x hx) t) _

theorem processBrandDirectory_isOk (dataPath name : String) (d : Dir)
    (hd : goodBrandDir d = true) (s : CrawlState) :
    ∃ s', processBrandDirectory dataPath name d s = .ok s' := by
  unfold goodBrandDir at hd
  unfold processBrandDirectory
  cases hf : d.file? "brand.json" with
  | none => exact ⟨_, rfl⟩
  | some c =>
      cases c with
      | none => exact ⟨_, rfl⟩
      | some doc =>
          rw [hf] at hd
          cases doc
          case obj bd =>
            dsimp only at hd
            try dsimp only
            rw [show asObj (Json.obj bd) = Except.ok bd from rfl, except_bind_ok]
            try dsimp only
            exact runList_isOk d.visible
              (fun x hx t => processMaterialDirectory_isOk _ x.1 x.2 _
                (List.all_eq_true.mp hd x hx) t) _
          all_goals exact Bool.noConfusion hd

theorem processStoreDirectory_isOk (storesPath name : String) (d : Dir)
    (hd : goodStoreDir d = true) (s : CrawlState) :
    ∃ s', processStoreDirectory storesPath name d s = .ok s' := by
  unfold goodStoreDir at hd
  unfold processStoreDirectory
  cases hf : d.file? "store.json" with
  | none => exact ⟨_, rfl⟩
  | some c =>
      cases c with
      | none => exact ⟨_, rfl⟩
      | some doc =>
          rw [hf] at hd
          cases doc
          case obj data =>
            dsimp only at hd
            try dsimp only
            rw [show asObj (Json.obj data) = Except.ok data from rfl, except_bind_ok]
            try dsimp only
            by_cases h1 : ¬ (Obj.getD data "id" Json.null).truthy = true
            · rw [if_pos h1]
              exact ⟨_, rfl⟩
            · rw [if_neg h1]
              rw [not_not] at h1
              rw [h1] at hd
              simp only [Bool.not_true, Bool.false_or, Bool.and_eq_true] at hd
              obtain ⟨hname, hhash⟩ := hd
              obtain ⟨slug, hsl⟩ := pySlugify_getD_isOk hname name
              rw [hsl, except_bind_ok]
              rw [if_neg (fun hnh => hnh hhash)]
              exact ⟨_, rfl⟩
          all_goals exact Bool.noConfusion hd

/-- C1 counterexample: with both root directories present, a single
sizes.json entry whose filament_weight is the non-numeric string "abc"
aborts the whole crawl with an uncaught ValueError — the bare
`int(weight)` of `_create_size` (line 346) is outside any try/except, so
the problem is not recorded as a warning and no snapshot is returned. -/
theorem C1_counterexample :
    crawl_data (some c1BadData) (some (Dir.node [] [])) =
      .error "ValueError: invalid literal for int()" := by
  rfl

/-- C1 (amended): the crawl is *not* crash-free for every source tree —
a sizes entry whose filament_weight or diameter does not convert, a
non-iterable purchase_links or hex_variants value, a non-string id/name
where slugification applies, an unhashable declared id, or a non-object
document under a parseable marker all raise uncaught exceptions.  It
does return a snapshot whenever every document is well-formed in the
decidable sense captured by `goodDataDir`/`goodStoresDir` (documents are
objects; weights convert by `int(·)`, diameters by `float(·)`;
purchase_links iterate; slugified fields are strings or absent; declared
ids are hashable). -/
theorem C1_no_crash_amended (dd sd : Dir)
    (hd : goodDataDir dd = true) (hs : goodStoresDir sd = true) :
    ∃ st, crawl_data (some dd) (some sd) = .ok st := by
  obtain ⟨s1, hs1⟩ := runList_isOk sd.visible
    (fun x hx t => processStoreDirectory_isOk "stores" x.1 x.2
      (List.all_eq_true.mp hs x hx) t) initialState
  obtain ⟨st, hst⟩ := runList_isOk dd.visible
    (fun x hx t => processBrandDirectory_isOk "data" x.1 x.2
      (List.all_eq_true.mp hd x hx) t) s1
  refine ⟨st, ?_⟩
  unfold crawl_data
  have h1 : crawlStoresDirectory (some sd) initialState = .ok s1 := hs1
  rw [h1, except_bind_ok]
  exact hst

/-- Witness for the amended C1 at a concrete well-formed pair of trees. -/
theorem C1_no_crash_amended_witness :
    goodDataDir c1GoodData = true ∧ goodStoresDir c1GoodStores = true ∧
    ∃ st, crawl_data (some c1GoodData) (some c1GoodStores) = .ok st :=
  ⟨by decide, by decide,
    C1_no_crash_amended c1GoodData c1GoodStores (by decide) (by decide)⟩

/-! ## Claim C3 — identifier uniqueness per entity type -/

/-- C3 counterexample: two store directories both declaring `"id": "x"`
yield two Store entities carrying the SAME identifier — the store
identifier is a pure function of the declared id alone, so the
snapshot's store ids are not pairwise distinct as the claim requires. -/
theorem C3_counterexample :
    (crawl_data (some (Dir.node [] [])) (some c3Stores)).map
        (fun st => st.stores.map (fun o => Obj.get? o "id")) =
      .ok [some (.str (generate_store_id (.str "x"))),
           some (.str (generate_store_id (.str "x")))] := by
  rfl

/-- C3 (amended): identifiers are deterministic functions of natural
keys, so uniqueness holds only where the key involves a disambiguator:
within one sizes file the per-entry index is part of the Size key, hence
any two entries — in particular two sizes with identical weight and
diameter under one variant — receive distinct identifiers, as the
concrete two-identical-entry file shows; but two store directories
declaring the same id value (and likewise two variant documents under
one filament declaring the same id) receive the SAME identifier, so
per-collection uniqueness fails in general. -/
theorem C3_size_ids_amended (variant_id : String) (e1 e2 : Json) (i1 i2 : Nat)
    (hne : i1 ≠ i2) :
    generate_size_id variant_id e1 i1 ≠ generate_size_id variant_id e2 i2 ∧
    ((processSizesFile (some (.arr [c3Entry, c3Entry])) "v" "p" initialState).map
        (fun s => s.sizes.map (fun o => Obj.get? o "id")) =
      .ok [some (.str (generate_size_id "v" c3Entry 0)),
           some (.str (generate_size_id "v" c3Entry 1))]) := by
  refine ⟨?_, by rfl⟩
  intro heq
  have hl := genId_inj _ _ _ heq
  rw [List.cons.injEq, List.cons.injEq, List.cons.injEq] at hl
  exact hne (indexKey_inj _ _ hl.2.2.1)

/-- Witness for the amended C3: the two identical entries of the concrete
sizes file receive distinct identifiers. -/
theorem C3_size_ids_amended_witness :
    generate_size_id "v" c3Entry 0 ≠ generate_size_id "v" c3Entry 1 :=
  (C3_size_ids_amended "v" c3Entry c3Entry 0 1 (by decide)).1
